import Mathlib

/-!
# Music player: playlist / playback coordinator

A shallow embedding of the state container in `src/pages/index.js` (the `HomePage`
component): the startup loader of the playlist collection, the value saved to the store,
the event handlers that create, select and delete a playlist, add files, remove a song,
move to the next or previous song, toggle playback and seek, and the effect that keeps the
audio element in step with the state.  Of the components it embeds what feeds these
handlers: the create handler of `src/components/PlaylistManager.js` and the seek handler
and `formatTime` of `src/components/ProgressBar.js`.

Conventions of the embedding

* React state cells (`playlists`, `currentPlaylistIndex`, ...) are the fields of `State`;
  a handler is a function `State → State` computing the values the `set...` calls install.
* JavaScript numbers used as indices are `Int`; `%` is the truncating remainder `Int.tmod`.
* JavaScript strings are processed as lists of characters.
* A finite JavaScript number is a rational (`JSNum.fin`).  The division in `formatTime`
  rounds to the nearest double (`toDouble`); the arithmetic of the progress bar is exact.
* Native capabilities are parameters or explicit data: `JSON.parse` is a parameter
  `parse : String → Option JSValue` (`none` = it throws), `confirm` is a `Bool`,
  `URL.createObjectURL` and the generated ids are parameters, and the `<audio>` element is
  the record `Audio` with the list of requests it received.
-/

namespace MusicPlayer

/-! ## JavaScript values -/

/-- A JavaScript number: a finite value or one of the three non-finite ones. -/
inductive JSNum where
  | nan : JSNum
  | posInf : JSNum
  | negInf : JSNum
  | fin (q : ℚ) : JSNum
  deriving DecidableEq

/-- The values `JSON.parse` can produce. -/
inductive JSValue where
  | null : JSValue
  | bool (b : Bool) : JSValue
  | num (x : JSNum) : JSValue
  | str (s : String) : JSValue
  | arr (items : List JSValue) : JSValue
  | obj (fields : List (String × JSValue)) : JSValue

/-- JavaScript truthiness (`ToBoolean`) of a parsed value. -/
def JSValue.truthy : JSValue → Bool
  | .null => false
  | .bool b => b
  | .num .nan => false
  | .num (.fin q) => decide (q ≠ 0)
  | .num _ => true
  | .str s => decide (s ≠ "")
  | .arr _ => true
  | .obj _ => true

/-- Reading a property `v.key` for one of the keys the loader reads (`name`, `songs`,
`title`, `artist`, `id`).  The outer `none` is the `TypeError` thrown on `null`; the inner
`none` is `undefined` (primitives and arrays have none of these keys). -/
def JSValue.getProp (v : JSValue) (key : String) : Option (Option JSValue) :=
  match v with
  | .null => none
  | .obj fields => some (fields.lookup key)
  | _ => some none

/-- The expression `x || d` where `x` may be `undefined`. -/
def orDefault (x : Option JSValue) (d : JSValue) : JSValue :=
  match x with
  | some v => if v.truthy then v else d
  | none => d

/-! ## Data model -/

/-- A song object `{ title, artist, file, id }`; `file` is `null` or an object URL. -/
structure Song where
  title : JSValue
  artist : JSValue
  file : Option String
  id : JSValue

/-- A playlist object `{ name, songs }`. -/
structure Playlist where
  name : JSValue
  songs : List Song

/-- A request received by the `<audio>` element. -/
inductive AudioReq where
  | pause : AudioReq
  | play : AudioReq
  | setSrc (url : String) : AudioReq
  | setCurrentTime (t : JSNum) : AudioReq
  deriving DecidableEq

/-- The `<audio>` element behind `audioRef.current`: its `src`, its `paused` flag and the
requests made so far (most recent first). -/
structure Audio where
  src : String
  paused : Bool
  requests : List AudioReq

/-- `audio.pause()`. -/
def Audio.pause (a : Audio) : Audio :=
  { a with paused := true, requests := AudioReq.pause :: a.requests }

/-- The assignment `audio.src = url`.  The load the element starts in response is not
modelled: `paused` keeps its value. -/
def Audio.setSrc (a : Audio) (url : String) : Audio :=
  { a with src := url, requests := AudioReq.setSrc url :: a.requests }

/-- The state cells of `HomePage`, the `<audio>` element (`none` while `audioRef.current`
is `null`) and the `alert` notices shown so far (most recent first). -/
structure State where
  playlists : List Playlist
  currentPlaylistIndex : Int
  currentSongIndex : Int
  isPlaying : Bool
  currentTime : JSNum
  duration : JSNum
  audio : Option Audio
  alerts : List String

/-- Array indexing `xs[i]` with a number: `none` is `undefined`. -/
def getIdx {α : Type} (xs : List α) (i : Int) : Option α :=
  if i < 0 then none else xs[i.toNat]?

/-- The call `xs.filter((_, index) => index !== i)`. -/
def removeAt {α : Type} (xs : List α) (i : Int) : List α :=
  (xs.enum.filter (fun p => decide ((p.1 : Int) ≠ i))).map Prod.snd

/-- Derived state `currentPlaylist.songs`, where
`currentPlaylist = playlists[currentPlaylistIndex] || { name: "Unknown", songs: [] }`. -/
def currentSongs (s : State) : List Song :=
  match getIdx s.playlists s.currentPlaylistIndex with
  | some p => p.songs
  | none => []

/-- Derived state `currentSong = currentPlaylist.songs[currentSongIndex]`. -/
def currentSong (s : State) : Option Song :=
  getIdx (currentSongs s) s.currentSongIndex

/-! ## Navigation -/

/-- The handler `handleNextSong`. -/
def handleNextSong (s : State) : State :=
  if (currentSongs s).length = 0 then s
  else
    let nextIndex := (s.currentSongIndex + 1).tmod (currentSongs s).length
    { s with currentSongIndex := nextIndex, isPlaying := true }

/-- The handler `handlePrevSong`. -/
def handlePrevSong (s : State) : State :=
  if (currentSongs s).length = 0 then s
  else
    let prevIndex :=
      (s.currentSongIndex - 1 + (currentSongs s).length).tmod (currentSongs s).length
    { s with currentSongIndex := prevIndex, isPlaying := true }

/-! ## Playlist deletion -/

/-- The expression `playlist?.songs[0]?.file || ""` for an optional playlist. -/
def firstFileOrEmpty (p : Option Playlist) : String :=
  ((p.bind (fun q => getIdx q.songs 0)).bind (fun song => song.file)).getD ""

/-- The handler `handleDeletePlaylist(indexToDelete, event)`; `confirmed` is the answer of
`confirm`.  When `playlists[indexToDelete]` is `undefined`, reading `.name` throws and the
handler ends without any state update. -/
def handleDeletePlaylist (indexToDelete : Int) (confirmed : Bool) (s : State) : State :=
  if s.playlists.length ≤ 1 then
    { s with alerts := "Cannot delete the last playlist." :: s.alerts }
  else
    match getIdx s.playlists indexToDelete with
    | none => s
    | some _ =>
      if !confirmed then s
      else
        let newPlaylists := removeAt s.playlists indexToDelete
        let nextPlaylistIndex : Int :=
          if s.currentPlaylistIndex = indexToDelete then 0
          else if s.currentPlaylistIndex > indexToDelete then s.currentPlaylistIndex - 1
          else s.currentPlaylistIndex
        if nextPlaylistIndex ≠ s.currentPlaylistIndex then
          { s with
            playlists := newPlaylists
            currentPlaylistIndex := nextPlaylistIndex
            currentSongIndex := 0
            isPlaying := false
            currentTime := JSNum.fin 0
            duration := JSNum.fin 0
            audio := s.audio.map (fun a =>
              a.pause.setSrc (firstFileOrEmpty (getIdx newPlaylists nextPlaylistIndex))) }
        else
          { s with playlists := newPlaylists }

/-! ## File names -/

/-- The call `name.replace(/\.[^/.]+$/, "")`: the leftmost dot that is followed, up to the
end of the string, by one or more characters other than `/` and `.` is removed together
with what follows it. -/
def stripExtension : List Char → List Char
  | [] => []
  | c :: cs =>
    if c = '.' ∧ cs ≠ [] ∧ cs.all (fun d => decide (d ≠ '/' ∧ d ≠ '.')) = true then []
    else c :: stripExtension cs

/-- The call `.replace(/_/g, " ")`. -/
def underscoresToSpaces (cs : List Char) : List Char :=
  cs.map (fun c => if c = '_' then Char.ofNat 32 else c)

/-- The cleaned title `file.name.replace(/\.[^/.]+$/, "").replace(/_/g, " ")`. -/
def cleanName (name : String) : List Char :=
  underscoresToSpaces (stripExtension name.toList)

/-- The separator `" - "`. -/
def separator : List Char := [Char.ofNat 32, '-', Char.ofNat 32]

/-- The first occurrence of `sep` in a string: what is left of it and what is right of
it, or `none` if `sep` does not occur. -/
def splitFirst (sep : List Char) : List Char → Option (List Char × List Char)
  | [] => if sep.isPrefixOf [] then some ([], []) else none
  | c :: cs =>
    if sep.isPrefixOf (c :: cs) then some ([], (c :: cs).drop sep.length)
    else (splitFirst sep cs).map (fun lr => (c :: lr.1, lr.2))

/-- The pieces of `str.split(sep)` for a non-empty `sep`, cutting at most `fuel` times. -/
def splitFuel (sep : List Char) : Nat → List Char → List (List Char)
  | 0, cs => [cs]
  | fuel + 1, cs =>
    match splitFirst sep cs with
    | none => [cs]
    | some (l, r) => l :: splitFuel sep fuel r

/-- The call `str.split(sep)` for a non-empty `sep`: a string of length `n` is cut at most
`n` times. -/
def jsSplit (sep : List Char) (cs : List Char) : List (List Char) :=
  splitFuel sep cs.length cs

/-- The characters `String.prototype.trim` removes: ECMAScript `WhiteSpace` and
`LineTerminator`. -/
def jsWhitespace (c : Char) : Bool :=
  let n := c.toNat
  n = 9 || n = 10 || n = 11 || n = 12 || n = 13 || n = 32 || n = 160 || n = 5760
    || (8192 ≤ n && n ≤ 8202) || n = 8232 || n = 8233 || n = 8239 || n = 8287
    || n = 12288 || n = 65279

/-- The call `str.trim()`. -/
def jsTrim (cs : List Char) : List Char :=
  ((cs.dropWhile jsWhitespace).reverse.dropWhile jsWhitespace).reverse

/-- The `title` and `artist` computed for a file name in `handleFilesAdded`. -/
def songMeta (name : String) : String × String :=
  let title := cleanName name
  let parts := jsSplit separator title
  if parts.length > 1 then
    (String.mk (jsTrim (List.intercalate separator (parts.drop 1))),
     String.mk (jsTrim (parts.headD [])))
  else
    (String.mk title, "Unknown Artist")

/-! ## Adding files and removing songs -/

/-- An entry of the `FileList` passed to `handleFilesAdded`. -/
structure FileEntry where
  name : String
  type : String

/-- The test `file.type.startsWith("audio/")`. -/
def isAudio (f : FileEntry) : Bool :=
  "audio/".toList.isPrefixOf f.type.toList

/-- The song object built for the `k`-th accepted file.  `createObjectURL k f` is the URL
that `URL.createObjectURL` returns for it and `newId k` the id generated for it. -/
def mkSong (createObjectURL : Nat → FileEntry → String) (newId : Nat → String)
    (k : Nat) (f : FileEntry) : Song :=
  { title := JSValue.str (songMeta f.name).1
    artist := JSValue.str (songMeta f.name).2
    file := some (createObjectURL k f)
    id := JSValue.str (newId k) }

/-- The array `newSongs` of `handleFilesAdded`: one song per audio-typed file. -/
def newSongsOf (createObjectURL : Nat → FileEntry → String) (newId : Nat → String)
    (files : List FileEntry) : List Song :=
  (files.filter isAudio).enum.map (fun kf => mkSong createObjectURL newId kf.1 kf.2)

/-- The update `playlists.map((playlist, index) => index === i ? f(playlist) : playlist)`
used by `handleFilesAdded` and `handleRemoveSong`. -/
def updateAt (ps : List Playlist) (i : Int) (f : Playlist → Playlist) : List Playlist :=
  ps.enum.map (fun ip => if (ip.1 : Int) = i then f ip.2 else ip.2)

/-- The handler `handleFilesAdded(files)`. -/
def handleFilesAdded (createObjectURL : Nat → FileEntry → String) (newId : Nat → String)
    (files : List FileEntry) (s : State) : State :=
  if s.currentPlaylistIndex < 0 ∨ s.currentPlaylistIndex ≥ s.playlists.length then
    { s with alerts := "Please create or select a valid playlist first!" :: s.alerts }
  else
    let audioFiles := files.filter isAudio
    if audioFiles.length = 0 then s
    else
      match getIdx s.playlists s.currentPlaylistIndex with
      | none => s
      | some playlistBeforeUpdate =>
        let newSongs := newSongsOf createObjectURL newId files
        let updatedPlaylists := updateAt s.playlists s.currentPlaylistIndex
          (fun playlist => { playlist with songs := (playlist.songs ++ newSongs) })
        match s.audio with
        | some a =>
          if playlistBeforeUpdate.songs.length = 0 ∧ newSongs.length > 0 then
            { s with
              playlists := updatedPlaylists
              currentSongIndex := 0
              audio := some (a.setSrc (((newSongs.head?).bind (fun song => song.file)).getD "")) }
          else { s with playlists := updatedPlaylists }
        | none => { s with playlists := updatedPlaylists }

/-- The handler `handleRemoveSong(songIndexToRemove, event)`; `confirmed` is the answer of
`confirm`. -/
def handleRemoveSong (songIndexToRemove : Int) (confirmed : Bool) (s : State) : State :=
  match getIdx s.playlists s.currentPlaylistIndex with
  | none => s
  | some playlistToUpdate =>
    match getIdx playlistToUpdate.songs songIndexToRemove with
    | none => s
    | some _ =>
      if !confirmed then s
      else
        let updatedSongs := removeAt playlistToUpdate.songs songIndexToRemove
        let shouldStopAndResetPlayer : Bool :=
          decide (updatedSongs.length = 0 ∨ songIndexToRemove = s.currentSongIndex)
        let nextSongIndex : Int :=
          if updatedSongs.length = 0 then 0
          else if songIndexToRemove = s.currentSongIndex then
            (if songIndexToRemove ≥ updatedSongs.length then 0 else songIndexToRemove)
          else if songIndexToRemove < s.currentSongIndex then s.currentSongIndex - 1
          else s.currentSongIndex
        let updatedPlaylists := updateAt s.playlists s.currentPlaylistIndex
          (fun playlist => { playlist with songs := updatedSongs })
        match shouldStopAndResetPlayer, s.audio with
        | true, some a =>
          let nextSong := getIdx updatedSongs nextSongIndex
          { s with
            playlists := updatedPlaylists
            currentSongIndex := nextSongIndex
            isPlaying := false
            currentTime := JSNum.fin 0
            duration := if nextSong.isNone then JSNum.fin 0 else s.duration
            audio := some (a.pause.setSrc ((nextSong.bind (fun song => song.file)).getD "")) }
        | _, _ =>
          { s with playlists := updatedPlaylists, currentSongIndex := nextSongIndex }

/-! ## Persistence -/

/-- The value `savablePlaylists` handed to `JSON.stringify` by the save effect. -/
def savablePlaylists (ps : List Playlist) : JSValue :=
  JSValue.arr (ps.map (fun p =>
    JSValue.obj
      [("name", p.name),
       ("songs", JSValue.arr (p.songs.map (fun s =>
          JSValue.obj [("title", s.title), ("artist", s.artist), ("id", s.id)])))]))

/-- All the values of a list of computations that may throw, or `none` if one throws. -/
def allOrThrow {α : Type} : List (Option α) → Option (List α)
  | [] => some []
  | none :: _ => none
  | some a :: xs => (allOrThrow xs).map (fun as => a :: as)

/-- The callback restoring one stored song; `none` is the `TypeError` of reading a
property of `null`.  `freshId` is the value of the template with `Date.now()` and
`Math.random()` at this song. -/
def restoreSong (freshId : String) (s : JSValue) : Option Song :=
  match s.getProp "title", s.getProp "artist", s.getProp "id" with
  | some title, some artist, some id =>
    some { title := orDefault title (JSValue.str "Unknown Title")
           artist := orDefault artist (JSValue.str "Unknown Artist")
           file := none
           id := orDefault id (JSValue.str freshId) }
  | _, _, _ => none

/-- The callback restoring one stored playlist; `none` is a thrown `TypeError`. -/
def restorePlaylist (freshId : Nat → String) (p : JSValue) : Option Playlist :=
  match p.getProp "name", p.getProp "songs" with
  | some name, some (some (JSValue.arr items)) =>
    (allOrThrow (items.enum.map (fun js => restoreSong (freshId js.1) js.2))).map
      (fun songs => { name := orDefault name (JSValue.str "Untitled Playlist"), songs := songs })
  | some name, some _ =>
    some { name := orDefault name (JSValue.str "Untitled Playlist"), songs := [] }
  | _, _ => none

/-- How the `try` block of the loader ends. -/
inductive TryOutcome where
  | returned (ps : List Playlist) : TryOutcome
  | completed : TryOutcome
  | threw : TryOutcome

/-- The `try` block of the loader, given the result `saved` of `localStorage.getItem`
(`none` is `null`) and `parse` for `JSON.parse` (`none` is a thrown `SyntaxError`). -/
def loadTry (parse : String → Option JSValue) (freshId : Nat → Nat → String)
    (saved : Option String) : TryOutcome :=
  match saved with
  | none => TryOutcome.completed
  | some txt =>
    if txt = "" then TryOutcome.completed
    else
      match parse txt with
      | none => TryOutcome.threw
      | some (JSValue.arr items) =>
        match allOrThrow (items.enum.map (fun ip => restorePlaylist (freshId ip.1) ip.2)) with
        | some ps => TryOutcome.returned ps
        | none => TryOutcome.threw
      | some _ => TryOutcome.completed

/-- The default collection `[{ name: "My Music", songs: [] }]`. -/
def defaultPlaylists : List Playlist :=
  [{ name := JSValue.str "My Music", songs := [] }]

/-- The initialiser of the `playlists` state cell.  `window` tells whether
`typeof window !== "undefined"`; the result is the initial collection and the value of the
key `musicPlayerPlaylists` afterwards (`none` once removed or when absent). -/
def loadPlaylists (window : Bool) (parse : String → Option JSValue)
    (freshId : Nat → Nat → String) (saved : Option String) :
    List Playlist × Option String :=
  if window then
    match loadTry parse freshId saved with
    | TryOutcome.returned ps => (ps, saved)
    | TryOutcome.completed => (defaultPlaylists, saved)
    | TryOutcome.threw => (defaultPlaylists, none)
  else (defaultPlaylists, saved)

/-- The state after the first render: the loaded collection and the initial values of the
other state cells. -/
def initialState (playlists : List Playlist) (audio : Option Audio) : State :=
  { playlists := playlists
    currentPlaylistIndex := 0
    currentSongIndex := 0
    isPlaying := false
    currentTime := JSNum.fin 0
    duration := JSNum.fin 0
    audio := audio
    alerts := [] }

/-! ## Creating and selecting playlists -/

/-- The handler `handleCreatePlaylist(name)` of `HomePage`. -/
def handleCreatePlaylist (name : String) (s : State) : State :=
  let newPlaylist : Playlist := { name := JSValue.str name, songs := [] }
  let newPlaylists := s.playlists ++ [newPlaylist]
  { s with
    playlists := newPlaylists
    currentPlaylistIndex := (newPlaylists.length : Int) - 1
    currentSongIndex := 0
    isPlaying := false
    currentTime := JSNum.fin 0
    duration := JSNum.fin 0
    audio := s.audio.map (fun a => a.pause.setSrc "") }

/-- The handler `handleCreatePlaylist` of the `PlaylistManager` component, run with the
text `newPlaylistName` of its input box: it calls `onCreatePlaylist`, which is
`handleCreatePlaylist` of `HomePage`, when the trimmed text is not empty (and then clears
the input box, which is not part of `State`). -/
def PlaylistManager.handleCreatePlaylist (newPlaylistName : String) (s : State) : State :=
  if jsTrim newPlaylistName.toList ≠ [] then
    MusicPlayer.handleCreatePlaylist (String.mk (jsTrim newPlaylistName.toList)) s
  else s

/-- The handler `handleSelectPlaylist(index)`. -/
def handleSelectPlaylist (index : Int) (s : State) : State :=
  if index = s.currentPlaylistIndex ∨ index < 0 ∨ index ≥ s.playlists.length then s
  else
    let selectedPlaylist := getIdx s.playlists index
    let firstSongFile : Option String :=
      (selectedPlaylist.bind (fun p => getIdx p.songs 0)).bind (fun song => song.file)
    { s with
      currentPlaylistIndex := index
      currentSongIndex := 0
      isPlaying := false
      currentTime := JSNum.fin 0
      duration := JSNum.fin 0
      audio := s.audio.map (fun a =>
        match firstSongFile with
        | some url => if url ≠ "" then a.pause.setSrc url else a.pause.setSrc ""
        | none => a.pause.setSrc "") }

/-! ## Playback -/

/-- The call `audio.play()`; the promise it returns settles later. -/
def Audio.play (a : Audio) : Audio :=
  { a with paused := false, requests := AudioReq.play :: a.requests }

/-- The assignment `audio.currentTime = t`. -/
def Audio.setCurrentTime (a : Audio) (t : JSNum) : Audio :=
  { a with requests := AudioReq.setCurrentTime t :: a.requests }

/-- The string a `file` value becomes when it is assigned to `audio.src`: `null` is
converted to the text `null`. -/
def fileAsSrc (file : Option String) : String :=
  match file with
  | some url => url
  | none => "null"

/-- The test `file` is truthy: it is neither `null` nor the empty string. -/
def fileTruthy (file : Option String) : Bool :=
  match file with
  | some url => decide (url ≠ "")
  | none => false

/-- The handler `handleTogglePlay`. -/
def handleTogglePlay (s : State) : State :=
  match currentSong s, s.audio with
  | some song, some a =>
    let a1 : Audio :=
      if a.src = "" ∧ fileTruthy song.file = true then a.setSrc (fileAsSrc song.file)
      else if some a.src ≠ song.file then a.setSrc (fileAsSrc song.file)
      else a
    if s.isPlaying then { s with audio := some a1.pause }
    else { s with audio := some a1.play }
  | _, _ => s

/-- The handler `handlePlaySong(index)`. -/
def handlePlaySong (index : Int) (s : State) : State :=
  match (getIdx s.playlists s.currentPlaylistIndex).bind (fun p => getIdx p.songs index) with
  | none => s
  | some _ =>
    if index = s.currentSongIndex then handleTogglePlay s
    else { s with currentSongIndex := index, isPlaying := true }

/-- The test `isFinite(x)` on a number. -/
def JSNum.isFinite : JSNum → Bool
  | JSNum.fin _ => true
  | _ => false

/-- The handler `handleSeek(seekTime)` of `HomePage`. -/
def handleSeek (seekTime : JSNum) (s : State) : State :=
  match s.audio with
  | some a =>
    if seekTime.isFinite then
      { s with currentTime := seekTime, audio := some (a.setCurrentTime seekTime) }
    else s
  | none => s

/-- The effect that loads, plays or pauses the audio element when `currentSong` or
`isPlaying` changes. -/
def syncEffect (s : State) : State :=
  match s.audio with
  | none => s
  | some audio =>
    match currentSong s with
    | some song =>
      if fileTruthy song.file = true then
        let reload : Bool := decide (some audio.src ≠ song.file)
        let a1 : Audio :=
          if reload then
            (if s.isPlaying = true ∧ (audio.setSrc (fileAsSrc song.file)).paused = false
             then (audio.setSrc (fileAsSrc song.file)).pause
             else audio.setSrc (fileAsSrc song.file))
          else audio
        let s1 : State :=
          if reload then { s with currentTime := JSNum.fin 0, duration := JSNum.fin 0 } else s
        if s.isPlaying then { s1 with audio := some a1.play }
        else { s1 with audio := some a1.pause }
      else
        { s with
          isPlaying := false
          currentTime := JSNum.fin 0
          duration := JSNum.fin 0
          audio := some (audio.pause.setSrc "") }
    | none =>
      { s with
        isPlaying := false
        currentTime := JSNum.fin 0
        duration := JSNum.fin 0
        audio := some (audio.pause.setSrc "") }

/-! ## The progress bar -/

/-- The test `!!x` on a number. -/
def JSNum.truthy : JSNum → Bool
  | JSNum.nan => false
  | JSNum.fin q => decide (q ≠ 0)
  | _ => true

/-- The test `x <= 0` on a number. -/
def JSNum.leZero : JSNum → Bool
  | JSNum.nan => false
  | JSNum.posInf => false
  | JSNum.negInf => true
  | JSNum.fin q => decide (q ≤ 0)

/-- The infinity with the sign of `q`, and `NaN` for zero. -/
def JSNum.infOfSign (q : ℚ) : JSNum :=
  if 0 < q then JSNum.posInf else if q < 0 then JSNum.negInf else JSNum.nan

/-- The quotient `x / w` of two finite numbers (zero taken as positive zero). -/
def JSNum.divFin (x w : ℚ) : JSNum :=
  if w = 0 then JSNum.infOfSign x else JSNum.fin (x / w)

/-- The call `Math.min(a, b)`. -/
def JSNum.min : JSNum → JSNum → JSNum
  | JSNum.nan, _ => JSNum.nan
  | _, JSNum.nan => JSNum.nan
  | JSNum.negInf, _ => JSNum.negInf
  | _, JSNum.negInf => JSNum.negInf
  | JSNum.posInf, b => b
  | a, JSNum.posInf => a
  | JSNum.fin a, JSNum.fin b => if a ≤ b then JSNum.fin a else JSNum.fin b

/-- The call `Math.max(a, b)`. -/
def JSNum.max : JSNum → JSNum → JSNum
  | JSNum.nan, _ => JSNum.nan
  | _, JSNum.nan => JSNum.nan
  | JSNum.posInf, _ => JSNum.posInf
  | _, JSNum.posInf => JSNum.posInf
  | JSNum.negInf, b => b
  | a, JSNum.negInf => a
  | JSNum.fin a, JSNum.fin b => if a ≤ b then JSNum.fin b else JSNum.fin a

/-- The product `a * b`. -/
def JSNum.mul : JSNum → JSNum → JSNum
  | JSNum.nan, _ => JSNum.nan
  | _, JSNum.nan => JSNum.nan
  | JSNum.fin a, JSNum.fin b => JSNum.fin (a * b)
  | JSNum.fin a, JSNum.posInf => JSNum.infOfSign a
  | JSNum.fin a, JSNum.negInf => JSNum.infOfSign (-a)
  | JSNum.posInf, JSNum.fin b => JSNum.infOfSign b
  | JSNum.negInf, JSNum.fin b => JSNum.infOfSign (-b)
  | JSNum.posInf, JSNum.posInf => JSNum.posInf
  | JSNum.negInf, JSNum.negInf => JSNum.posInf
  | JSNum.posInf, JSNum.negInf => JSNum.negInf
  | JSNum.negInf, JSNum.posInf => JSNum.negInf

/-- The handler `handleSeek(e)` of the `ProgressBar` component, for a click at `clientX`
on a bar whose rectangle starts at `left` and is `width` wide.  Its props are
`duration = s.duration` and `onSeek`, which is `handleSeek` of `HomePage`; the bar is
mounted. -/
def ProgressBar.handleSeek (clientX left width : ℚ) (s : State) : State :=
  if s.duration.truthy = false ∨ s.duration.leZero = true then s
  else
    let x := clientX - left
    let percentage := JSNum.max (JSNum.fin 0) (JSNum.min (JSNum.fin 1) (JSNum.divFin x width))
    let seekTime := percentage.mul s.duration
    if seekTime.isFinite then MusicPlayer.handleSeek seekTime s else s

/-- The call `str.padStart(2, "0")`. -/
def padStart2 (cs : List Char) : List Char :=
  List.replicate (2 - cs.length) '0' ++ cs

/-- The integer nearest to `m`, a tie going to the even one. -/
def roundHalfEven (m : ℚ) : Int :=
  if m - (Int.floor m : ℚ) < 1 / 2 then Int.floor m
  else if 1 / 2 < m - (Int.floor m : ℚ) then Int.floor m + 1
  else if Int.floor m % 2 = 0 then Int.floor m
  else Int.floor m + 1

/-- The double nearest to the real number `q` (IEEE 754 binary64, round to nearest, ties
to even): with `e` the binary exponent of `q`, at least `-1022`, the doubles around `q`
are the multiples of `2 ^ (e - 52)`; a result of `2 ^ 1024` or more is an infinity. -/
def toDouble (q : ℚ) : JSNum :=
  if q = 0 then JSNum.fin 0
  else
    let e : Int := max (Int.log 2 |q|) (-1022)
    let ulp : ℚ := (2 : ℚ) ^ (e - 52)
    let r : ℚ := (roundHalfEven (|q| / ulp) : ℚ) * ulp
    if (2 : ℚ) ^ (1024 : Nat) ≤ r then (if 0 < q then JSNum.posInf else JSNum.negInf)
    else JSNum.fin (if 0 < q then r else -r)

/-- The text of a whole number, as a template literal or `toString()` gives it.  A whole
number of magnitude below `2 ^ 53` is written as its decimal numeral; `large` is
`Number.prototype.toString` on the others (it writes only the shortest digits that
identify the double, and uses exponent form from `1e21`). -/
def numberToString (large : Int → String) (i : Int) : String :=
  if i.natAbs < 2 ^ 53 then toString i else large i

/-- The function `formatTime(seconds)` of the `ProgressBar` component, for a double
`seconds`.  The quotient `seconds / 60` is rounded to a double; the remainder
`seconds % 60` of two doubles is exact. -/
def formatTime (large : Int → String) (seconds : JSNum) : String :=
  match seconds with
  | JSNum.fin q =>
    if q < 0 then "0:00"
    else
      let secs : Int := Int.floor (q - 60 * (Int.floor (q / 60) : ℚ))
      let minutes : String :=
        match toDouble (q / 60) with
        | JSNum.fin d => numberToString large (Int.floor d)
        | JSNum.posInf => "Infinity"
        | JSNum.negInf => "-Infinity"
        | JSNum.nan => "NaN"
      String.mk (minutes.toList ++ [':'] ++ padStart2 (numberToString large secs).toList)
  | _ => "0:00"

/-! ## Specification vocabulary -/

/-- The string `cs` is `l`, then the first occurrence of `sep`, then `r`. -/
def IsFirstSplit (sep cs l r : List Char) : Prop :=
  cs = l ++ sep ++ r ∧ ∀ l2 r2 : List Char, cs = l2 ++ sep ++ r2 → l.length ≤ l2.length

/-- The restored form of a collection: the same playlists and songs with every `file` null. -/
def withoutFiles (ps : List Playlist) : List Playlist :=
  ps.map (fun p => { p with songs := p.songs.map (fun s => { s with file := none }) })

/-- All names, titles, artists and ids of a collection are truthy. -/
def AllTruthy (ps : List Playlist) : Prop :=
  ∀ p ∈ ps, p.name.truthy = true ∧
    ∀ s ∈ p.songs, s.title.truthy = true ∧ s.artist.truthy = true ∧ s.id.truthy = true

/-- The playlist collection is non-empty and the playlist index refers to one of its
playlists. -/
def PlaylistIndexOk (s : State) : Prop :=
  s.playlists ≠ [] ∧ 0 ≤ s.currentPlaylistIndex ∧ s.currentPlaylistIndex < s.playlists.length

/-- The two decimal digits of a number below one hundred. -/
def twoDigits (k : Nat) : List Char :=
  [Nat.digitChar (k / 10), Nat.digitChar (k % 10)]

/-- The artist and the title of an optional song. -/
def artistAndTitle (song : Option Song) : Option (JSValue × JSValue) :=
  song.map (fun x => (x.artist, x.title))

/-! ## Sequences of song operations -/

/-- An operation on the songs of the active playlist: `handleFilesAdded` with the values the
environment supplies for it, or a confirmed `handleRemoveSong`. -/
inductive SongOp where
  | addFiles (createObjectURL : Nat → FileEntry → String) (newId : Nat → String)
      (files : List FileEntry) : SongOp
  | removeTrack (index : Int) : SongOp

/-- Running one operation. -/
def applySongOp (s : State) : SongOp → State
  | .addFiles createObjectURL newId files => handleFilesAdded createObjectURL newId files s
  | .removeTrack index => handleRemoveSong index true s

/-- The song index refers to a song of the active playlist, or that playlist is empty. -/
def songIndexOk (s : State) : Prop :=
  currentSongs s = [] ∨ (0 ≤ s.currentSongIndex ∧ s.currentSongIndex < (currentSongs s).length)

/-- The inductive form of `songIndexOk`: on an empty playlist the index is `0`. -/
def SongIndexInv (s : State) : Prop :=
  (currentSongs s = [] ∧ s.currentSongIndex = 0) ∨
    (0 ≤ s.currentSongIndex ∧ s.currentSongIndex < (currentSongs s).length)

/-! ## Example states -/

/-- A song with a playable file. -/
def exampleSong (t : String) : Song :=
  { title := JSValue.str t, artist := JSValue.str "Unknown Artist",
    file := some ("blob:" ++ t), id := JSValue.str ("id-" ++ t) }

/-- Two playlists, the first one active, its second song selected and playing. -/
def firstActiveState : State :=
  { playlists :=
      [{ name := JSValue.str "My Music",
         songs := [exampleSong "a", exampleSong "b", exampleSong "c"] },
       { name := JSValue.str "Other", songs := [exampleSong "x", exampleSong "y"] }]
    currentPlaylistIndex := 0
    currentSongIndex := 1
    isPlaying := true
    currentTime := JSNum.fin 12
    duration := JSNum.fin 180
    audio := some { src := "blob:b", paused := false, requests := [] }
    alerts := [] }

/-- Two playlists, the second one active, its second song selected and playing. -/
def secondActiveState : State :=
  { firstActiveState with currentPlaylistIndex := 1, currentSongIndex := 1 }

/-- A collection of one playlist with two songs added from the files
`Artist Name - Song Title.mp3` and `just_a_title.mp3`. -/
def sampleCollection : List Playlist :=
  [{ name := JSValue.str "Road Trip"
     songs :=
       [{ title := JSValue.str "Song Title", artist := JSValue.str "Artist Name",
          file := some "blob:1", id := JSValue.str "1700000000000-0.25" },
        { title := JSValue.str "just a title", artist := JSValue.str "Unknown Artist",
          file := some "blob:2", id := JSValue.str "1700000000000-0.75" }] }]

/-- The text `JSON.stringify` produces for `savablePlaylists sampleCollection`. -/
def sampleText : String :=
  "[\x7b\"name\":\"Road Trip\",\"songs\":[\x7b\"title\":\"Song Title\",\"artist\":\"Artist Name\",\"id\":\"1700000000000-0.25\"\x7d,\x7b\"title\":\"just a title\",\"artist\":\"Unknown Artist\",\"id\":\"1700000000000-0.75\"\x7d]\x7d]"

/-- A collection whose only song was added from a file named `.mp3`: its title is the
empty string. -/
def emptyTitleCollection : List Playlist :=
  [{ name := JSValue.str "My Music"
     songs :=
       [{ title := JSValue.str (songMeta ".mp3").1, artist := JSValue.str (songMeta ".mp3").2,
          file := some "blob:1", id := JSValue.str "1700000000000-0.5" }] }]

/-- The text `JSON.stringify` produces for `savablePlaylists emptyTitleCollection`. -/
def emptyTitleText : String :=
  "[\x7b\"name\":\"My Music\",\"songs\":[\x7b\"title\":\"\",\"artist\":\"Unknown Artist\",\"id\":\"1700000000000-0.5\"\x7d]\x7d]"

/-- A value for the generated ids. -/
def sampleFreshId : Nat → Nat → String :=
  fun _ _ => "1700000000001-0.125"

/-- A three-song playlist with the second song selected. -/
def threeSongState : State :=
  let song (t : String) : Song :=
    { title := JSValue.str t, artist := JSValue.str "Unknown Artist", file := none,
      id := JSValue.str t }
  { initialState [{ name := JSValue.str "My Music", songs := [song "a", song "b", song "c"] }]
      none with currentSongIndex := 1 }

/-- The state after a reload: the restored collection (no song has a file), the first song
selected, and the audio element with the empty source the effect gave it. -/
def restoredState : State :=
  initialState (withoutFiles sampleCollection)
    (some { src := "", paused := true, requests := [] })

/-- Three dropped files, the second of which is not an audio file. -/
def sampleFiles : List FileEntry :=
  [{ name := "Artist Name - Song Title.mp3", type := "audio/mpeg" },
   { name := "notes.txt", type := "text/plain" },
   { name := "just_a_title.ogg", type := "audio/ogg" }]

/-- Values for the object URLs created for added files. -/
def sampleObjectURL : Nat → FileEntry → String :=
  fun _ f => "blob:" ++ f.name

/-- Values for the ids generated for added files. -/
def sampleNewId : Nat → String :=
  fun _ => "1700000000002-0.375"

/-- The state `firstActiveState` with the last song of the active playlist selected. -/
def lastSongState : State :=
  { firstActiveState with currentSongIndex := 2 }

/-- The decimal numeral, taken for the text of the large whole numbers. -/
def decimalNumeral : Int → String :=
  fun i => toString i

/-! # Lemmas -/

/-! ## Indexing, removing and updating -/

theorem getIdx_ofNat {α : Type} (xs : List α) (n : Nat) : getIdx xs (n : Int) = xs[n]? := by
  simp [getIdx]

theorem getIdx_eq_some {α : Type} {xs : List α} {i : Int} {a : α} (h : getIdx xs i = some a) :
    0 ≤ i ∧ i < xs.length ∧ xs[i.toNat]? = some a := by
  unfold getIdx at h
  split at h
  · exact absurd h (by simp)
  · have hlt := (List.getElem?_eq_some_iff.mp h).1
    exact ⟨by omega, by omega, h⟩

theorem getIdx_eq_none {α : Type} {xs : List α} {i : Int} (h : getIdx xs i = none) :
    i < 0 ∨ (xs.length : Int) ≤ i := by
  unfold getIdx at h
  split at h
  · left; assumption
  · right
    have := List.getElem?_eq_none_iff.mp h
    omega

theorem filter_enumFrom_ne_of_lt {α : Type} (xs : List α) (k m : Nat) (h : m < k) :
    ((xs.enumFrom k).filter (fun p => decide ((p.1 : Int) ≠ (m : Int)))).map Prod.snd = xs := by
  induction xs generalizing k with
  | nil => rfl
  | cons x xs ih =>
    have hk : ¬ ((k : Int) = (m : Int)) := by omega
    have hm : ¬ (k = m) := by omega
    simpa [List.enumFrom, hk, hm] using ih (k + 1) (by omega)

theorem filter_enumFrom_eraseIdx {α : Type} (xs : List α) (k n : Nat) :
    ((xs.enumFrom k).filter (fun p => decide ((p.1 : Int) ≠ ((k + n : Nat) : Int)))).map Prod.snd
      = xs.eraseIdx n := by
  induction xs generalizing k n with
  | nil => rfl
  | cons x xs ih =>
    cases n with
    | zero =>
      simpa [List.enumFrom] using filter_enumFrom_ne_of_lt xs (k + 1) k (by omega)
    | succ n =>
      have hk : ¬ ((k : Int) = ((k + (n + 1) : Nat) : Int)) := by omega
      simp only [List.enumFrom, List.filter_cons, ne_eq, hk, not_false_eq_true, decide_True,
        if_true, List.map_cons, List.eraseIdx_cons_succ, List.cons.injEq, true_and]
      have := ih (k + 1) n
      rw [show k + 1 + n = k + (n + 1) by omega] at this
      exact this

theorem removeAt_ofNat {α : Type} (xs : List α) (n : Nat) :
    removeAt xs (n : Int) = xs.eraseIdx n := by
  have := filter_enumFrom_eraseIdx xs 0 n
  simpa [removeAt, List.enum] using this

theorem removeAt_length {α : Type} (xs : List α) (i : Int) (h0 : 0 ≤ i) (hlt : i < xs.length) :
    (removeAt xs i).length = xs.length - 1 := by
  obtain ⟨n, rfl⟩ := Int.eq_ofNat_of_zero_le h0
  rw [removeAt_ofNat, List.length_eraseIdx]
  simp; omega

theorem getElem?_updateAt (ps : List Playlist) (i : Int) (f : Playlist → Playlist) (n : Nat) :
    (updateAt ps i f)[n]? = (ps[n]?).map (fun p => if (n : Int) = i then f p else p) := by
  unfold updateAt
  rw [List.getElem?_map, List.getElem?_enum]
  cases ps[n]? <;> simp

theorem length_updateAt (ps : List Playlist) (i : Int) (f : Playlist → Playlist) :
    (updateAt ps i f).length = ps.length := by
  simp [updateAt]

theorem getIdx_updateAt_self (ps : List Playlist) (i : Int) (f : Playlist → Playlist) :
    getIdx (updateAt ps i f) i = (getIdx ps i).map f := by
  unfold getIdx
  split
  · rfl
  · rename_i h
    rw [getElem?_updateAt]
    have : ((i.toNat : Nat) : Int) = i := Int.toNat_of_nonneg (by omega)
    cases ps[i.toNat]? <;> simp [this]

/-! ## Navigation -/

theorem currentSongs_handleNextSong (s : State) :
    currentSongs (handleNextSong s) = currentSongs s := by
  unfold handleNextSong
  split <;> rfl

theorem currentSongs_handlePrevSong (s : State) :
    currentSongs (handlePrevSong s) = currentSongs s := by
  unfold handlePrevSong
  split <;> rfl

theorem currentSongIndex_handleNextSong (s : State) (hn : (currentSongs s).length ≠ 0) :
    (handleNextSong s).currentSongIndex
      = (s.currentSongIndex + 1).tmod (currentSongs s).length := by
  simp [handleNextSong, hn]

theorem currentSongIndex_handlePrevSong (s : State) (hn : (currentSongs s).length ≠ 0) :
    (handlePrevSong s).currentSongIndex
      = (s.currentSongIndex - 1 + (currentSongs s).length).tmod (currentSongs s).length := by
  simp [handlePrevSong, hn]

theorem tmod_succ_wrap (i n : Int) (h0 : 0 ≤ i) (hlt : i < n) :
    (i + 1).tmod n = if i + 1 = n then 0 else i + 1 := by
  rw [Int.tmod_eq_emod (by omega) (by omega)]
  split
  · rename_i h
    rw [h, Int.emod_self]
  · have h1 : 0 ≤ i + 1 := by omega
    have h2 : i + 1 < n := by omega
    exact Int.emod_eq_of_lt h1 h2

theorem tmod_pred_wrap (i n : Int) (h0 : 0 ≤ i) (hlt : i < n) :
    (i - 1 + n).tmod n = if i = 0 then n - 1 else i - 1 := by
  rw [Int.tmod_eq_emod (by omega) (by omega)]
  split
  · rename_i h
    subst h
    have h1 : (0 : Int) ≤ 0 - 1 + n := by omega
    have h2 : (0 : Int) - 1 + n < n := by omega
    rw [Int.emod_eq_of_lt h1 h2]
    omega
  · rw [Int.add_emod_self]
    have h1 : 0 ≤ i - 1 := by omega
    have h2 : i - 1 < n := by omega
    exact Int.emod_eq_of_lt h1 h2

/-! ## The song index invariant -/

theorem currentSongs_of_getIdx {s : State} {p : Playlist}
    (h : getIdx s.playlists s.currentPlaylistIndex = some p) : currentSongs s = p.songs := by
  simp [currentSongs, h]

theorem SongIndexInv_initialState (pls : List Playlist) (audio : Option Audio) :
    SongIndexInv (initialState pls audio) := by
  unfold SongIndexInv
  by_cases h : currentSongs (initialState pls audio) = []
  · left; exact ⟨h, rfl⟩
  · right
    refine ⟨le_refl _, ?_⟩
    have : 0 < (currentSongs (initialState pls audio)).length := List.length_pos.mpr h
    show (0 : Int) < _
    omega

theorem SongIndexInv_of (t : State) (songs : List Song) (hs : currentSongs t = songs)
    (h : (songs = [] ∧ t.currentSongIndex = 0) ∨
      (0 ≤ t.currentSongIndex ∧ t.currentSongIndex < songs.length)) : SongIndexInv t := by
  unfold SongIndexInv
  rw [hs]
  exact h

theorem currentSongs_updateAt (t s : State) (f : Playlist → Playlist) (p : Playlist)
    (hp : getIdx s.playlists s.currentPlaylistIndex = some p)
    (ht : t.playlists = updateAt s.playlists s.currentPlaylistIndex f)
    (hc : t.currentPlaylistIndex = s.currentPlaylistIndex) :
    currentSongs t = (f p).songs := by
  simp [currentSongs, ht, hc, getIdx_updateAt_self, hp]

theorem handleFilesAdded_accepted (createObjectURL : Nat → FileEntry → String)
    (newId : Nat → String) (files : List FileEntry) (s : State) (pb : Playlist)
    (hpb : getIdx s.playlists s.currentPlaylistIndex = some pb)
    (hfiles : (files.filter isAudio).length ≠ 0) :
    (handleFilesAdded createObjectURL newId files s).playlists
        = updateAt s.playlists s.currentPlaylistIndex
            (fun playlist =>
              { playlist with songs := (playlist.songs ++ newSongsOf createObjectURL newId files) }) ∧
    (handleFilesAdded createObjectURL newId files s).currentPlaylistIndex
        = s.currentPlaylistIndex ∧
    (handleFilesAdded createObjectURL newId files s).currentSongIndex
        = (if pb.songs.length = 0 ∧ s.audio.isSome then 0 else s.currentSongIndex) := by
  obtain ⟨h0, hlt, _⟩ := getIdx_eq_some hpb
  have hguard : ¬ (s.currentPlaylistIndex < 0 ∨ s.currentPlaylistIndex ≥ s.playlists.length) := by
    omega
  have hpos : 0 < (files.filter isAudio).length := Nat.pos_of_ne_zero hfiles
  unfold handleFilesAdded
  rw [if_neg hguard]
  simp only [hfiles, if_false, hpb, newSongsOf]
  cases ha : s.audio with
  | none => simp
  | some a =>
    by_cases hz : pb.songs.length = 0
    · simp [hz, hpos]
    · simp [hz]

theorem SongIndexInv_handleFilesAdded (createObjectURL : Nat → FileEntry → String)
    (newId : Nat → String) (files : List FileEntry) (s : State) (h : SongIndexInv s) :
    SongIndexInv (handleFilesAdded createObjectURL newId files s) := by
  by_cases hguard : s.currentPlaylistIndex < 0 ∨ s.currentPlaylistIndex ≥ s.playlists.length
  · have : SongIndexInv
        { s with alerts := "Please create or select a valid playlist first!" :: s.alerts } := h
    simpa [handleFilesAdded, hguard] using this
  by_cases hfiles : (files.filter isAudio).length = 0
  · simpa [handleFilesAdded, hguard, hfiles] using h
  cases hpb : getIdx s.playlists s.currentPlaylistIndex with
  | none => simpa [handleFilesAdded, hguard, hfiles, hpb] using h
  | some pb =>
    obtain ⟨hp, hc, hi⟩ := handleFilesAdded_accepted createObjectURL newId files s pb hpb hfiles
    have hsongs := currentSongs_updateAt _ s _ pb hpb hp hc
    have hcur := currentSongs_of_getIdx hpb
    have hpos : 0 < (files.filter isAudio).length := Nat.pos_of_ne_zero hfiles
    have hnl : (newSongsOf createObjectURL newId files).length = (files.filter isAudio).length := by
      simp [newSongsOf]
    refine SongIndexInv_of _ (pb.songs ++ newSongsOf createObjectURL newId files) hsongs ?_
    right
    rw [hi, List.length_append, hnl]
    unfold SongIndexInv at h
    rw [hcur] at h
    split
    · omega
    · rename_i hne
      rcases h with ⟨h1, h2⟩ | h
      · rw [h2]; omega
      · omega

theorem handleRemoveSong_confirmed (index : Int) (s : State) (pl : Playlist) (sg : Song)
    (hpl : getIdx s.playlists s.currentPlaylistIndex = some pl)
    (hsg : getIdx pl.songs index = some sg) :
    (handleRemoveSong index true s).playlists
        = updateAt s.playlists s.currentPlaylistIndex
            (fun playlist => { playlist with songs := removeAt pl.songs index }) ∧
    (handleRemoveSong index true s).currentPlaylistIndex = s.currentPlaylistIndex ∧
    (handleRemoveSong index true s).currentSongIndex
        = (if (removeAt pl.songs index).length = 0 then 0
           else if index = s.currentSongIndex then
             (if index ≥ (removeAt pl.songs index).length then 0 else index)
           else if index < s.currentSongIndex then s.currentSongIndex - 1
           else s.currentSongIndex) := by
  unfold handleRemoveSong
  simp only [hpl, hsg, Bool.not_true, Bool.false_eq_true, if_false]
  split <;> exact ⟨rfl, rfl, rfl⟩

theorem SongIndexInv_handleRemoveSong (index : Int) (s : State)
    (h : SongIndexInv s) : SongIndexInv (handleRemoveSong index true s) := by
  cases hpl : getIdx s.playlists s.currentPlaylistIndex with
  | none => simpa [handleRemoveSong, hpl] using h
  | some pl =>
    cases hsg : getIdx pl.songs index with
    | none => simpa [handleRemoveSong, hpl, hsg] using h
    | some sg =>
      obtain ⟨hp, hc, hi⟩ := handleRemoveSong_confirmed index s pl sg hpl hsg
      have hsongs := currentSongs_updateAt _ s _ pl hpl hp hc
      have hcur := currentSongs_of_getIdx hpl
      obtain ⟨hi0, hilt, _⟩ := getIdx_eq_some hsg
      have hlen := removeAt_length pl.songs index hi0 hilt
      refine SongIndexInv_of _ (removeAt pl.songs index) hsongs ?_
      rw [hi]
      unfold SongIndexInv at h
      rw [hcur] at h
      by_cases hz : (removeAt pl.songs index).length = 0
      · left
        exact ⟨List.length_eq_zero.mp hz, by simp [hz]⟩
      · right
        rw [if_neg hz]
        rcases h with ⟨h1, _⟩ | h
        · rw [h1] at hilt; simp at hilt; omega
        · split
          · split <;> omega
          · split <;> omega

theorem SongIndexInv_applySongOp (s : State) (op : SongOp) (h : SongIndexInv s) :
    SongIndexInv (applySongOp s op) := by
  cases op with
  | addFiles c n f => exact SongIndexInv_handleFilesAdded c n f s h
  | removeTrack i => exact SongIndexInv_handleRemoveSong i s h

theorem SongIndexInv_foldl (ops : List SongOp) (s : State) (h : SongIndexInv s) :
    SongIndexInv (ops.foldl applySongOp s) := by
  induction ops generalizing s with
  | nil => exact h
  | cons op ops ih => exact ih _ (SongIndexInv_applySongOp s op h)

/-! ## The loader -/

theorem allOrThrow_map_enumFrom {α β γ : Type} (h : α → β) (F : Nat × β → Option γ)
    (g : α → γ) (xs : List α) (k : Nat)
    (hF : ∀ x ∈ xs, ∀ i, F (i, h x) = some (g x)) :
    allOrThrow (((xs.map h).enumFrom k).map F) = some (xs.map g) := by
  induction xs generalizing k with
  | nil => rfl
  | cons x xs ih =>
    have hx := hF x (List.mem_cons_self x xs) k
    have hrest := ih (k + 1) (fun y hy i => hF y (List.mem_cons_of_mem x hy) i)
    simp only [List.map_cons, List.enumFrom, allOrThrow, hx, hrest, Option.map_some']

theorem orDefault_of_truthy (v d : JSValue) (h : v.truthy = true) :
    orDefault (some v) d = v := by
  simp [orDefault, h]

theorem restoreSong_savable (freshId : String) (s : Song)
    (h : s.title.truthy = true ∧ s.artist.truthy = true ∧ s.id.truthy = true) :
    restoreSong freshId
        (JSValue.obj [("title", s.title), ("artist", s.artist), ("id", s.id)])
      = some { s with file := none } := by
  simp [restoreSong, JSValue.getProp, List.lookup, orDefault_of_truthy, h.1, h.2.1, h.2.2]

theorem restorePlaylist_savable (freshId : Nat → String) (p : Playlist)
    (h : p.name.truthy = true ∧
      ∀ s ∈ p.songs, s.title.truthy = true ∧ s.artist.truthy = true ∧ s.id.truthy = true) :
    restorePlaylist freshId
        (JSValue.obj
          [("name", p.name),
           ("songs", JSValue.arr (p.songs.map (fun s =>
              JSValue.obj [("title", s.title), ("artist", s.artist), ("id", s.id)])))])
      = some { p with songs := p.songs.map (fun s => { s with file := none }) } := by
  have hsongs := allOrThrow_map_enumFrom
    (fun s : Song => JSValue.obj [("title", s.title), ("artist", s.artist), ("id", s.id)])
    (fun js => restoreSong (freshId js.1) js.2)
    (fun s : Song => { s with file := none }) p.songs 0
    (fun s hs i => restoreSong_savable (freshId i) s (h.2 s hs))
  simp only [restorePlaylist, JSValue.getProp, List.lookup]
  simp [List.enum, hsongs, orDefault_of_truthy, h.1]

theorem loadTry_savable (parse : String → Option JSValue) (freshId : Nat → Nat → String)
    (txt : String) (ps : List Playlist) (hne : txt ≠ "")
    (hparse : parse txt = some (savablePlaylists ps)) (ht : AllTruthy ps) :
    loadTry parse freshId (some txt) = TryOutcome.returned (withoutFiles ps) := by
  have hps := allOrThrow_map_enumFrom
    (fun p : Playlist => JSValue.obj
      [("name", p.name),
       ("songs", JSValue.arr (p.songs.map (fun s =>
          JSValue.obj [("title", s.title), ("artist", s.artist), ("id", s.id)])))])
    (fun ip => restorePlaylist (freshId ip.1) ip.2)
    (fun p : Playlist => { p with songs := p.songs.map (fun s => { s with file := none }) })
    ps 0 (fun p hp i => restorePlaylist_savable (freshId i) p (ht p hp))
  simp only [loadTry, hne, if_false, hparse, savablePlaylists, List.enum, hps, withoutFiles]

theorem allOrThrow_length {α : Type} (xs : List (Option α)) (ys : List α)
    (h : allOrThrow xs = some ys) : ys.length = xs.length := by
  induction xs generalizing ys with
  | nil => simp [allOrThrow] at h; subst h; rfl
  | cons x xs ih =>
    cases x with
    | none => simp [allOrThrow] at h
    | some a =>
      cases hr : allOrThrow xs with
      | none => simp [allOrThrow, hr] at h
      | some as =>
        simp [allOrThrow, hr] at h
        subst h
        simp [ih as hr]

theorem loadPlaylists_eq_nil_iff (window : Bool) (parse : String → Option JSValue)
    (freshId : Nat → Nat → String) (saved : Option String) :
    (loadPlaylists window parse freshId saved).1 = [] ↔
      window = true ∧ ∃ txt, saved = some txt ∧ txt ≠ "" ∧ parse txt = some (JSValue.arr []) := by
  cases window with
  | false => simp [loadPlaylists, defaultPlaylists]
  | true =>
    cases saved with
    | none => simp [loadPlaylists, loadTry, defaultPlaylists]
    | some txt =>
      by_cases he : txt = ""
      · simp [loadPlaylists, loadTry, he, defaultPlaylists]
      · cases hp : parse txt with
        | none => simp [loadPlaylists, loadTry, he, hp, defaultPlaylists]
        | some v =>
          cases v with
          | arr items =>
            cases hr : allOrThrow (items.enum.map
                (fun ip => restorePlaylist (freshId ip.1) ip.2)) with
            | none =>
              have hne : items ≠ [] := by
                intro h0
                rw [h0] at hr
                simp [List.enum, List.enumFrom, allOrThrow] at hr
              simp [loadPlaylists, loadTry, he, hp, hr, defaultPlaylists, hne]
            | some ps =>
              have hl := allOrThrow_length _ _ hr
              simp only [List.length_map, List.enum_length] at hl
              simp only [loadPlaylists, loadTry, he, hp, hr, if_true, if_false, true_and,
                Option.some.injEq, exists_eq_left', ne_eq, not_false_eq_true,
                JSValue.arr.injEq]
              constructor
              · intro h
                rw [h] at hl
                exact List.length_eq_zero.mp hl.symm
              · intro h
                rw [h] at hl
                exact List.length_eq_zero.mp hl
          | _ => simp [loadPlaylists, loadTry, he, hp, defaultPlaylists]

/-! ## Splitting a file name -/

theorem isPrefixOf_iff_append (sep cs : List Char) :
    sep.isPrefixOf cs = true ↔ cs = sep ++ cs.drop sep.length := by
  rw [List.isPrefixOf_iff_prefix, List.prefix_iff_eq_append]
  exact eq_comm

theorem isPrefixOf_append (sep r : List Char) : sep.isPrefixOf (sep ++ r) = true := by
  rw [List.isPrefixOf_iff_prefix]
  exact List.prefix_append sep r

theorem splitFirst_some (sep : List Char) (hsep : sep ≠ []) (cs l r : List Char)
    (h : splitFirst sep cs = some (l, r)) : IsFirstSplit sep cs l r := by
  induction cs generalizing l with
  | nil =>
    have : sep.isPrefixOf [] = false := by
      cases sep with
      | nil => exact absurd rfl hsep
      | cons a as => rfl
    simp [splitFirst, this] at h
  | cons c cs ih =>
    unfold splitFirst at h
    split at h
    · rename_i hp
      simp only [Option.some.injEq, Prod.mk.injEq] at h
      obtain ⟨hl, hr⟩ := h
      subst hl
      refine ⟨?_, fun _ _ _ => Nat.zero_le _⟩
      rw [← hr]
      simpa using (isPrefixOf_iff_append sep (c :: cs)).mp hp
    · rename_i hp
      cases hs : splitFirst sep cs with
      | none => simp [hs] at h
      | some lr =>
        obtain ⟨l0, r0⟩ := lr
        simp only [hs, Option.map_some', Option.some.injEq, Prod.mk.injEq] at h
        obtain ⟨hl, hr⟩ := h
        subst hl hr
        obtain ⟨heq, hmin⟩ := ih l0 hs
        refine ⟨by simp [heq], ?_⟩
        intro l2 r2 h2
        cases l2 with
        | nil =>
          exfalso
          apply hp
          rw [h2]
          simp
        | cons d l3 =>
          simp only [List.cons_append, List.cons.injEq] at h2
          have := hmin l3 r2 (by simpa using h2.2)
          simp; omega

theorem splitFirst_none (sep cs : List Char) (h : splitFirst sep cs = none)
    (l r : List Char) : cs ≠ l ++ sep ++ r := by
  induction cs generalizing l with
  | nil =>
    intro h2
    have hl : l = [] ∧ sep = [] ∧ r = [] := by
      have := congrArg List.length h2
      simp at this
      refine ⟨List.length_eq_zero.mp (by omega), List.length_eq_zero.mp (by omega),
        List.length_eq_zero.mp (by omega)⟩
    rw [hl.2.1] at h
    simp [splitFirst] at h
  | cons c cs ih =>
    unfold splitFirst at h
    split at h
    · simp at h
    · rename_i hp
      intro h2
      cases l with
      | nil =>
        apply hp
        rw [h2]
        simp
      | cons d l3 =>
        simp only [List.cons_append, List.cons.injEq] at h2
        cases hs : splitFirst sep cs with
        | none => exact ih hs l3 (by simpa using h2.2)
        | some lr => simp [hs] at h

theorem IsFirstSplit_unique (sep cs l r l2 r2 : List Char)
    (h1 : IsFirstSplit sep cs l r) (h2 : IsFirstSplit sep cs l2 r2) : l = l2 ∧ r = r2 := by
  have hlen : l.length = l2.length :=
    Nat.le_antisymm (h1.2 l2 r2 h2.1) (h2.2 l r h1.1)
  have heq : l ++ (sep ++ r) = l2 ++ (sep ++ r2) := by
    rw [← List.append_assoc, ← List.append_assoc, ← h1.1, ← h2.1]
  have hl := List.append_inj_left heq hlen
  subst hl
  exact ⟨rfl, List.append_cancel_left (List.append_cancel_left heq)⟩

theorem splitFirst_of_IsFirstSplit (sep : List Char) (hsep : sep ≠ []) (cs l r : List Char)
    (h : IsFirstSplit sep cs l r) : splitFirst sep cs = some (l, r) := by
  cases hs : splitFirst sep cs with
  | none => exact absurd h.1 (splitFirst_none sep cs hs l r)
  | some lr =>
    obtain ⟨l0, r0⟩ := lr
    obtain ⟨hl, hr⟩ := IsFirstSplit_unique sep cs l0 r0 l r (splitFirst_some sep hsep cs l0 r0 hs) h
    rw [hl, hr]

theorem splitFuel_ne_nil (sep : List Char) (n : Nat) (cs : List Char) :
    splitFuel sep n cs ≠ [] := by
  cases n with
  | zero => simp [splitFuel]
  | succ n =>
    unfold splitFuel
    split <;> simp

theorem intercalate_cons_of_ne_nil (sep x : List Char) (xs : List (List Char)) (h : xs ≠ []) :
    List.intercalate sep (x :: xs) = x ++ sep ++ List.intercalate sep xs := by
  cases xs with
  | nil => exact absurd rfl h
  | cons y ys => simp [List.intercalate, List.intersperse]

theorem intercalate_splitFuel (sep : List Char) (hsep : sep ≠ []) (n : Nat) (cs : List Char)
    (hn : cs.length ≤ n) : List.intercalate sep (splitFuel sep n cs) = cs := by
  induction n generalizing cs with
  | zero =>
    have : cs = [] := List.length_eq_zero.mp (by omega)
    subst this
    simp [splitFuel, List.intercalate]
  | succ n ih =>
    unfold splitFuel
    split
    · simp [List.intercalate]
    · rename_i l r hs
      obtain ⟨heq, _⟩ := splitFirst_some sep hsep cs l r hs
      have hpos : 0 < sep.length := List.length_pos.mpr hsep
      have hr : r.length ≤ n := by
        have := congrArg List.length heq
        simp at this
        omega
      rw [intercalate_cons_of_ne_nil sep l _ (splitFuel_ne_nil sep n r), ih r hr, heq]

theorem separator_ne_nil : separator ≠ [] := by decide

theorem songMeta_split (name : String) (l r : List Char)
    (h : IsFirstSplit separator (cleanName name) l r) :
    songMeta name = (String.mk (jsTrim r), String.mk (jsTrim l)) := by
  have hs := splitFirst_of_IsFirstSplit separator separator_ne_nil _ l r h
  have hlen : (cleanName name).length = (l.length + 2 + r.length) + 1 := by
    rw [h.1]; simp [separator]; omega
  have hr : r.length ≤ l.length + 2 + r.length := by omega
  have hparts : jsSplit separator (cleanName name)
      = l :: splitFuel separator (l.length + 2 + r.length) r := by
    rw [jsSplit, hlen, splitFuel, hs]
  have hne := splitFuel_ne_nil separator (l.length + 2 + r.length) r
  have hgt : (jsSplit separator (cleanName name)).length > 1 := by
    rw [hparts]
    have : 0 < (splitFuel separator (l.length + 2 + r.length) r).length :=
      List.length_pos.mpr hne
    simp; omega
  unfold songMeta
  simp only [hgt, if_true]
  rw [hparts]
  simp only [List.drop_succ_cons, List.drop_zero, List.headD_cons]
  rw [intercalate_splitFuel separator separator_ne_nil _ r hr]

theorem songMeta_whole (name : String)
    (h : ∀ l r : List Char, cleanName name ≠ l ++ separator ++ r) :
    songMeta name = (String.mk (cleanName name), "Unknown Artist") := by
  have hs : splitFirst separator (cleanName name) = none := by
    cases hs : splitFirst separator (cleanName name) with
    | none => rfl
    | some lr =>
      exact absurd (splitFirst_some separator separator_ne_nil _ lr.1 lr.2 hs).1 (h lr.1 lr.2)
  have hparts : jsSplit separator (cleanName name) = [cleanName name] := by
    unfold jsSplit
    cases (cleanName name).length with
    | zero => rfl
    | succ n => rw [splitFuel, hs]
  unfold songMeta
  simp [hparts]

/-! ## Creating, selecting and deleting playlists -/

theorem PlaylistIndexOk_handleCreatePlaylist (name : String) (s : State) :
    PlaylistIndexOk (handleCreatePlaylist name s) := by
  unfold PlaylistIndexOk handleCreatePlaylist
  simp only [List.length_append, List.length_singleton]
  refine ⟨by simp, ?_, ?_⟩ <;> omega

theorem PlaylistIndexOk_handleSelectPlaylist (index : Int) (s : State)
    (h : PlaylistIndexOk s) : PlaylistIndexOk (handleSelectPlaylist index s) := by
  unfold handleSelectPlaylist
  split
  · exact h
  · rename_i hg
    unfold PlaylistIndexOk at h ⊢
    refine ⟨h.1, ?_, ?_⟩
    · show 0 ≤ index
      omega
    · show index < s.playlists.length
      omega

theorem handleDeletePlaylist_confirmed (index : Int) (s : State) (p : Playlist)
    (hle : ¬ s.playlists.length ≤ 1) (hg : getIdx s.playlists index = some p) :
    (handleDeletePlaylist index true s).playlists = removeAt s.playlists index ∧
    (handleDeletePlaylist index true s).currentPlaylistIndex
      = (if s.currentPlaylistIndex = index then 0
         else if s.currentPlaylistIndex > index then s.currentPlaylistIndex - 1
         else s.currentPlaylistIndex) := by
  unfold handleDeletePlaylist
  simp only [if_neg hle, hg, Bool.not_true, Bool.false_eq_true, if_false]
  generalize (if s.currentPlaylistIndex = index then (0 : Int)
    else if s.currentPlaylistIndex > index then s.currentPlaylistIndex - 1
    else s.currentPlaylistIndex) = next
  by_cases hn : next ≠ s.currentPlaylistIndex
  · rw [if_pos hn]
    exact ⟨rfl, rfl⟩
  · rw [if_neg hn]
    refine ⟨rfl, ?_⟩
    simp only [ne_eq, Decidable.not_not] at hn
    exact hn.symm

theorem PlaylistIndexOk_handleDeletePlaylist (index : Int) (s : State)
    (h : PlaylistIndexOk s) (h0 : 0 ≤ index) (hlt : index < s.playlists.length) :
    PlaylistIndexOk (handleDeletePlaylist index true s) := by
  by_cases hle : s.playlists.length ≤ 1
  · have : handleDeletePlaylist index true s
        = { s with alerts := "Cannot delete the last playlist." :: s.alerts } := by
      unfold handleDeletePlaylist
      rw [if_pos hle]
    rw [this]
    exact h
  · have hlen := removeAt_length s.playlists index h0 hlt
    obtain ⟨_, hc0, hclt⟩ := h
    cases hg : getIdx s.playlists index with
    | none => rcases getIdx_eq_none hg with h | h <;> omega
    | some p =>
      obtain ⟨hp, hc⟩ := handleDeletePlaylist_confirmed index s p hle hg
      unfold PlaylistIndexOk
      rw [hp, hc, hlen]
      refine ⟨?_, ?_, ?_⟩
      · intro hnil
        rw [hnil] at hlen
        simp at hlen
        omega
      · split
        · omega
        · split <;> omega
      · split
        · omega
        · split <;> omega

/-! ## Removing a song -/

theorem getIdx_removeAt {α : Type} (xs : List α) (r j : Int) (hr : 0 ≤ r) (hj : 0 ≤ j) :
    getIdx (removeAt xs r) j = if j < r then getIdx xs j else getIdx xs (j + 1) := by
  obtain ⟨n, rfl⟩ := Int.eq_ofNat_of_zero_le hr
  obtain ⟨m, rfl⟩ := Int.eq_ofNat_of_zero_le hj
  rw [removeAt_ofNat, getIdx_ofNat, List.getElem?_eraseIdx]
  have h1 : getIdx xs ((m : Int) + 1) = xs[m + 1]? := by
    have : ((m : Int) + 1) = ((m + 1 : Nat) : Int) := by push_cast; rfl
    rw [this, getIdx_ofNat]
  rw [h1, getIdx_ofNat]
  by_cases h : m < n
  · have h2 : (m : Int) < (n : Int) := by omega
    rw [if_pos h, if_pos h2]
  · have h2 : ¬ (m : Int) < (n : Int) := by omega
    rw [if_neg h, if_neg h2]

theorem getIdx_isSome {α : Type} (xs : List α) (i : Int) (h0 : 0 ≤ i) (hlt : i < xs.length) :
    (getIdx xs i).isSome = true := by
  unfold getIdx
  rw [if_neg (by omega)]
  have : i.toNat < xs.length := by omega
  rw [List.getElem?_eq_getElem this]
  rfl

/-! ## Adding files -/

theorem getIdx_updateAt_ne (ps : List Playlist) (i j : Int) (f : Playlist → Playlist)
    (h : j ≠ i) : getIdx (updateAt ps i f) j = getIdx ps j := by
  unfold getIdx
  split
  · rfl
  · rename_i hj
    rw [getElem?_updateAt]
    have hcast : ((j.toNat : Nat) : Int) = j := Int.toNat_of_nonneg (by omega)
    cases ps[j.toNat]? with
    | none => rfl
    | some p => simp only [Option.map_some', hcast, if_neg h]

theorem newSongsOf_getElem? (createObjectURL : Nat → FileEntry → String)
    (newId : Nat → String) (files : List FileEntry) (k : Nat) :
    (newSongsOf createObjectURL newId files)[k]?
      = ((files.filter isAudio)[k]?).map (fun f => mkSong createObjectURL newId k f) := by
  unfold newSongsOf
  rw [List.getElem?_map, List.getElem?_enum]
  cases (files.filter isAudio)[k]? <;> rfl

theorem getIdx_append_right {α : Type} (xs ys : List α) (k : Nat) :
    getIdx (xs ++ ys) ((xs.length : Int) + (k : Int)) = ys[k]? := by
  have h : ((xs.length : Int) + (k : Int)) = ((xs.length + k : Nat) : Int) := by
    push_cast; rfl
  rw [h, getIdx_ofNat, List.getElem?_append_right (Nat.le_add_right _ _)]
  simp

theorem added_song (createObjectURL : Nat → FileEntry → String) (newId : Nat → String)
    (files : List FileEntry) (s : State) (pb : Playlist) (k : Nat) (f : FileEntry)
    (hpb : getIdx s.playlists s.currentPlaylistIndex = some pb)
    (hf : (files.filter isAudio)[k]? = some f) :
    getIdx (currentSongs (handleFilesAdded createObjectURL newId files s))
        ((pb.songs.length : Int) + (k : Int))
      = some (mkSong createObjectURL newId k f) := by
  have hfiles : (files.filter isAudio).length ≠ 0 := by
    intro h0
    rw [List.length_eq_zero.mp h0] at hf
    simp at hf
  obtain ⟨hp, hc, _⟩ := handleFilesAdded_accepted createObjectURL newId files s pb hpb hfiles
  have hsongs := currentSongs_updateAt _ s _ pb hpb hp hc
  rw [hsongs]
  show getIdx (pb.songs ++ newSongsOf createObjectURL newId files) _ = _
  rw [getIdx_append_right, newSongsOf_getElem?, hf]
  rfl

/-! ## Playback and seeking -/

theorem handleTogglePlay_no_song (s : State) (h : currentSong s = none) :
    handleTogglePlay s = s := by
  unfold handleTogglePlay
  rw [h]

theorem clamp_cases (x w : ℚ) :
    JSNum.max (JSNum.fin 0) (JSNum.min (JSNum.fin 1) (JSNum.divFin x w)) = JSNum.nan ∨
    ∃ p : ℚ, 0 ≤ p ∧ p ≤ 1 ∧
      JSNum.max (JSNum.fin 0) (JSNum.min (JSNum.fin 1) (JSNum.divFin x w)) = JSNum.fin p := by
  unfold JSNum.divFin
  by_cases hw : w = 0
  · rw [if_pos hw]
    unfold JSNum.infOfSign
    by_cases h1 : 0 < x
    · rw [if_pos h1]
      right
      exact ⟨1, by norm_num, le_refl 1, by simp [JSNum.min, JSNum.max]⟩
    · rw [if_neg h1]
      by_cases h2 : x < 0
      · rw [if_pos h2]
        right
        exact ⟨0, le_refl 0, by norm_num, by simp [JSNum.min, JSNum.max]⟩
      · rw [if_neg h2]
        left
        rfl
  · rw [if_neg hw]
    right
    by_cases h1 : (1 : ℚ) ≤ x / w
    · exact ⟨1, by norm_num, le_refl 1, by simp [JSNum.min, JSNum.max, h1]⟩
    · by_cases h2 : (0 : ℚ) ≤ x / w
      · exact ⟨x / w, h2, le_of_lt (not_le.mp h1), by simp [JSNum.min, JSNum.max, h1, h2]⟩
      · exact ⟨0, le_refl 0, by norm_num, by simp [JSNum.min, JSNum.max, h1, h2]⟩

theorem mul_posInf_not_finite (a : JSNum) : (a.mul JSNum.posInf).isFinite = false := by
  cases a with
  | fin q =>
    simp only [JSNum.mul, JSNum.infOfSign]
    split
    · rfl
    · split <;> rfl
  | _ => rfl

/-! ## Formatting a time -/

theorem padStart2_toString (k : Nat) (hk : k < 60) :
    padStart2 (toString ((k : Nat) : Int)).toList = twoDigits k := by
  interval_cases k <;> rfl

theorem floor_div_sixty (n : Nat) : Int.floor ((n : ℚ) / 60) = ((n / 60 : Nat) : Int) := by
  have := Rat.floor_natCast_div_natCast n 60
  simpa using this

theorem floor_mod_sixty (n : Nat) :
    Int.floor ((n : ℚ) - 60 * ((Int.floor ((n : ℚ) / 60) : Int) : ℚ)) = ((n % 60 : Nat) : Int) := by
  rw [floor_div_sixty]
  have h : (n : ℚ) - 60 * (((n / 60 : Nat) : Int) : ℚ) = ((n % 60 : Nat) : ℚ) := by
    have h1 : n % 60 + 60 * (n / 60) = n := Nat.mod_add_div n 60
    have h2 : ((n % 60 : Nat) : ℚ) + 60 * ((n / 60 : Nat) : ℚ) = (n : ℚ) := by
      exact_mod_cast h1
    rw [Int.cast_natCast]
    linarith
  rw [h]
  exact Int.floor_natCast _

theorem roundHalfEven_ge (m : ℚ) (z : Int) (h : (z : ℚ) ≤ m) : z ≤ roundHalfEven m := by
  have hz : z ≤ Int.floor m := Int.le_floor.mpr h
  unfold roundHalfEven
  split
  · exact hz
  · split
    · omega
    · split
      · exact hz
      · omega

theorem roundHalfEven_le (m : ℚ) (z : Int) (h : m < (z : ℚ) - 1 / 2) :
    roundHalfEven m ≤ z - 1 := by
  have hlt : m < (z : ℚ) := by linarith
  have hz : Int.floor m < z := Int.floor_lt.mpr hlt
  by_cases hf : Int.floor m = z - 1
  · have hfrac : m - (Int.floor m : ℚ) < 1 / 2 := by
      rw [hf]
      push_cast
      linarith
    unfold roundHalfEven
    rw [if_pos hfrac]
    omega
  · have hz2 : Int.floor m + 1 ≤ z - 1 := by omega
    unfold roundHalfEven
    split
    · omega
    · split
      · exact hz2
      · split
        · omega
        · exact hz2

theorem toDouble_div_sixty (n : Nat) (hn : n < 2 ^ 53) :
    ∃ d : ℚ, toDouble ((n : ℚ) / 60) = JSNum.fin d ∧ Int.floor d = ((n / 60 : Nat) : Int) := by
  by_cases h0 : n = 0
  · subst h0
    exact ⟨0, by simp [toDouble], by simp⟩
  have hnpos : (0 : ℚ) < (n : ℚ) := by exact_mod_cast Nat.pos_of_ne_zero h0
  have hq : (0 : ℚ) < (n : ℚ) / 60 := by positivity
  have hqne : (n : ℚ) / 60 ≠ 0 := ne_of_gt hq
  have habs : |(n : ℚ) / 60| = (n : ℚ) / 60 := abs_of_pos hq
  -- the exponent is at most 47
  have hnlt : (n : ℚ) < 2 ^ 53 := by exact_mod_cast hn
  have hq48 : (n : ℚ) / 60 < ((2 : ℕ) : ℚ) ^ (48 : Int) := by
    have : ((2 : ℕ) : ℚ) ^ (48 : Int) = 2 ^ 48 := by norm_num
    rw [this, div_lt_iff₀ (by norm_num)]
    calc (n : ℚ) < 2 ^ 53 := hnlt
      _ ≤ 2 ^ 48 * 60 := by norm_num
  have hlog : Int.log 2 ((n : ℚ) / 60) < 48 :=
    (Int.lt_zpow_iff_log_lt (by norm_num) hq).mp hq48
  obtain ⟨j, hj⟩ : ∃ j : Nat, max (Int.log 2 ((n : ℚ) / 60)) (-1022) - 52 = -((j : Int) + 5) := by
    refine ⟨(47 - max (Int.log 2 ((n : ℚ) / 60)) (-1022)).toNat, ?_⟩
    have : max (Int.log 2 ((n : ℚ) / 60)) (-1022) ≤ 47 := by
      apply max_le <;> omega
    omega
  -- the spacing of the doubles is `1 / P` with `P` a multiple of `32`
  set P : ℚ := 2 ^ (j + 5) with hP
  have hPpos : (0 : ℚ) < P := by positivity
  have hP32 : (32 : ℚ) ≤ P := by
    rw [hP, pow_add]
    have : (1 : ℚ) ≤ 2 ^ j := one_le_pow₀ (by norm_num)
    calc (32 : ℚ) = 1 * 2 ^ 5 := by norm_num
      _ ≤ 2 ^ j * 2 ^ 5 := by gcongr
  have hulp : (2 : ℚ) ^ (max (Int.log 2 ((n : ℚ) / 60)) (-1022) - 52) = P⁻¹ := by
    rw [hj, zpow_neg, hP]
    congr 1
    have : ((j : Int) + 5) = ((j + 5 : Nat) : Int) := by push_cast; rfl
    rw [this, zpow_natCast]
  -- the quotient and its whole part
  have hk1 : ((n / 60 : Nat) : ℚ) ≤ (n : ℚ) / 60 := by
    rw [le_div_iff₀ (by norm_num)]
    have : n / 60 * 60 ≤ n := Nat.div_mul_le_self n 60
    exact_mod_cast this
  have hk2 : (n : ℚ) / 60 ≤ ((n / 60 : Nat) : ℚ) + 59 / 60 := by
    rw [div_le_iff₀ (by norm_num)]
    have h1 : n % 60 + 60 * (n / 60) = n := Nat.mod_add_div n 60
    have h2 : n % 60 < 60 := Nat.mod_lt _ (by norm_num)
    have h3 : n ≤ 60 * (n / 60) + 59 := by omega
    have h4 : (n : ℚ) ≤ 60 * ((n / 60 : Nat) : ℚ) + 59 := by exact_mod_cast h3
    linarith
  set k : ℚ := ((n / 60 : Nat) : ℚ) with hk
  set R : Int := roundHalfEven ((n : ℚ) / 60 / P⁻¹) with hR
  have hm : (n : ℚ) / 60 / P⁻¹ = (n : ℚ) / 60 * P := by
    rw [div_inv_eq_mul]
  -- bounds on the rounded multiple
  obtain ⟨KP, hKP⟩ : ∃ K : Int, (K : ℚ) = k * P := by
    refine ⟨((n / 60 : Nat) : Int) * 2 ^ (j + 5), ?_⟩
    rw [hk, hP]
    push_cast
    rfl
  have hlow : KP ≤ R := by
    apply roundHalfEven_ge
    rw [hKP, hm]
    exact mul_le_mul_of_nonneg_right hk1 (le_of_lt hPpos)
  obtain ⟨KP1, hKP1⟩ : ∃ K : Int, (K : ℚ) = (k + 1) * P := by
    refine ⟨(((n / 60 : Nat) : Int) + 1) * 2 ^ (j + 5), ?_⟩
    rw [hk, hP]
    push_cast
    rfl
  have hhigh : R ≤ KP1 - 1 := by
    apply roundHalfEven_le
    rw [hKP1, hm]
    have : (n : ℚ) / 60 * P ≤ (k + 59 / 60) * P :=
      mul_le_mul_of_nonneg_right hk2 (le_of_lt hPpos)
    nlinarith
  have hlowQ : k * P ≤ (R : ℚ) := by
    rw [← hKP]
    exact_mod_cast hlow
  have hhighQ : (R : ℚ) ≤ (k + 1) * P - 1 := by
    have : (R : ℚ) ≤ ((KP1 - 1 : Int) : ℚ) := by exact_mod_cast hhigh
    rw [Int.cast_sub, hKP1] at this
    simpa using this
  -- the rounded quotient
  have hr1 : k ≤ (R : ℚ) * P⁻¹ := by
    rw [← div_eq_mul_inv, le_div_iff₀ hPpos]
    exact hlowQ
  have hr2 : (R : ℚ) * P⁻¹ < k + 1 := by
    rw [← div_eq_mul_inv, div_lt_iff₀ hPpos]
    linarith
  have hk53 : k + 1 ≤ 2 ^ 53 := by
    have h1 : n / 60 + 1 ≤ 2 ^ 53 := by
      have := Nat.div_le_self n 60
      omega
    rw [hk]
    exact_mod_cast h1
  have hover : ¬ ((2 : ℚ) ^ (1024 : Nat) ≤ (R : ℚ) * P⁻¹) := by
    rw [not_le]
    calc (R : ℚ) * P⁻¹ < k + 1 := hr2
      _ ≤ 2 ^ 53 := hk53
      _ ≤ 2 ^ 1024 := by norm_num
  refine ⟨(R : ℚ) * P⁻¹, ?_, ?_⟩
  · unfold toDouble
    simp only [hqne, if_false, habs, hulp, hq, if_true]
    rw [← hR, if_neg hover]
  · rw [Int.floor_eq_iff]
    refine ⟨?_, ?_⟩
    · rw [hk] at hr1
      exact_mod_cast hr1
    · rw [hk] at hr2
      exact_mod_cast hr2

theorem toDouble_large_quotient :
    toDouble (((67553994410557496 : Nat) : ℚ) / 60) = JSNum.fin 1125899906842625 := by
  have hq : (0 : ℚ) < ((67553994410557496 : Nat) : ℚ) / 60 := by norm_num
  have habs : |((67553994410557496 : Nat) : ℚ) / 60| = ((67553994410557496 : Nat) : ℚ) / 60 :=
    abs_of_pos hq
  have hlog : Int.log 2 (((67553994410557496 : Nat) : ℚ) / 60) = 50 := by
    apply le_antisymm
    · have : Int.log 2 (((67553994410557496 : Nat) : ℚ) / 60) < 51 :=
        (Int.lt_zpow_iff_log_lt (by norm_num) hq).mp (by norm_num)
      omega
    · exact (Int.zpow_le_iff_le_log (by norm_num) hq).mp (by norm_num)
  have hulp : (2 : ℚ) ^ (max (50 : Int) (-1022) - 52) = 1 / 4 := by norm_num
  have hfloor : Int.floor (((67553994410557496 : Nat) : ℚ) / 60 / (1 / 4))
      = 4503599627370499 := by
    rw [Int.floor_eq_iff]
    constructor <;> norm_num
  have hround : roundHalfEven (((67553994410557496 : Nat) : ℚ) / 60 / (1 / 4))
      = 4503599627370500 := by
    unfold roundHalfEven
    rw [hfloor]
    norm_num
  unfold toDouble
  simp only [ne_of_gt hq, if_false, habs, hlog, hulp, hround, hq, if_true]
  norm_num

/-! # Properties -/

/-- C1: on a playlist with `n ≥ 1` songs and a song index `i` with `0 ≤ i < n`,
`handleNextSong` followed by `handlePrevSong` leaves the song index equal to `i`, and so
does `handlePrevSong` followed by `handleNextSong`. -/
theorem next_prev_inverse (s : State) (hn : 1 ≤ (currentSongs s).length)
    (h0 : 0 ≤ s.currentSongIndex) (hlt : s.currentSongIndex < (currentSongs s).length) :
    (handlePrevSong (handleNextSong s)).currentSongIndex = s.currentSongIndex ∧
    (handleNextSong (handlePrevSong s)).currentSongIndex = s.currentSongIndex := by
  have hne : (currentSongs s).length ≠ 0 := by omega
  constructor
  · rw [currentSongIndex_handlePrevSong _ (by rw [currentSongs_handleNextSong]; exact hne),
      currentSongs_handleNextSong, currentSongIndex_handleNextSong _ hne]
    generalize ((currentSongs s).length : Int) = n at *
    generalize s.currentSongIndex = i at *
    rw [tmod_succ_wrap i n h0 hlt]
    split
    · rw [tmod_pred_wrap 0 n (by omega) (by omega)]
      simp; omega
    · rw [tmod_pred_wrap (i + 1) n (by omega) (by omega)]
      split <;> omega
  · rw [currentSongIndex_handleNextSong _ (by rw [currentSongs_handlePrevSong]; exact hne),
      currentSongs_handlePrevSong, currentSongIndex_handlePrevSong _ hne]
    generalize ((currentSongs s).length : Int) = n at *
    generalize s.currentSongIndex = i at *
    rw [tmod_pred_wrap i n h0 hlt]
    split
    · rw [tmod_succ_wrap (n - 1) n (by omega) (by omega)]
      simp; omega
    · rw [tmod_succ_wrap (i - 1) n (by omega) (by omega)]
      split <;> omega

/-- Witness for C1 on a three-song playlist with the second song selected. -/
theorem next_prev_inverse_witness :
    (handlePrevSong (handleNextSong threeSongState)).currentSongIndex = 1 ∧
    (handleNextSong (handlePrevSong threeSongState)).currentSongIndex = 1 :=
  next_prev_inverse threeSongState (by decide) (by decide) (by decide)

/-- C2: starting from the state after startup (song index `0`) and running any finite
sequence of `handleFilesAdded` and confirmed `handleRemoveSong` calls, the song index is a
valid index into the songs of the active playlist, or the active playlist is empty. -/
theorem song_index_valid_or_empty (pls : List Playlist) (audio : Option Audio)
    (ops : List SongOp) :
    songIndexOk (ops.foldl applySongOp (initialState pls audio)) := by
  rcases SongIndexInv_foldl ops _ (SongIndexInv_initialState pls audio) with h | h
  · exact Or.inl h.1
  · exact Or.inr h

/-- C3 (the reset is missed when the active playlist is the first one): with two
playlists, the first one active and its second song playing, a confirmed
`handleDeletePlaylist 0` leaves `currentPlaylistIndex = 0` but keeps the song index, the
playing flag, the position and the duration; the song index now selects the second song
of the playlist that was second. -/
theorem delete_first_active_keeps_player_state :
    (handleDeletePlaylist 0 true firstActiveState).currentPlaylistIndex = 0 ∧
    (handleDeletePlaylist 0 true firstActiveState).currentSongIndex = 1 ∧
    (handleDeletePlaylist 0 true firstActiveState).isPlaying = true ∧
    (handleDeletePlaylist 0 true firstActiveState).currentTime = JSNum.fin 12 ∧
    (handleDeletePlaylist 0 true firstActiveState).duration = JSNum.fin 180 ∧
    (currentSong (handleDeletePlaylist 0 true firstActiveState)).map (fun song => song.id)
      = some (JSValue.str "id-y") :=
  ⟨rfl, rfl, rfl, rfl, rfl, rfl⟩

/-- Deleting the active playlist when it is not the first one selects playlist `0` and
resets the song index, the playing flag, the position and the duration. -/
theorem handleDeletePlaylist_active_nonzero (s : State) (h2 : 2 ≤ s.playlists.length)
    (h0 : 0 < s.currentPlaylistIndex) (hlt : s.currentPlaylistIndex < s.playlists.length) :
    (handleDeletePlaylist s.currentPlaylistIndex true s).currentPlaylistIndex = 0 ∧
    (handleDeletePlaylist s.currentPlaylistIndex true s).currentSongIndex = 0 ∧
    (handleDeletePlaylist s.currentPlaylistIndex true s).isPlaying = false ∧
    (handleDeletePlaylist s.currentPlaylistIndex true s).currentTime = JSNum.fin 0 ∧
    (handleDeletePlaylist s.currentPlaylistIndex true s).duration = JSNum.fin 0 := by
  have hlen : ¬ s.playlists.length ≤ 1 := by omega
  cases hg : getIdx s.playlists s.currentPlaylistIndex with
  | none => rcases getIdx_eq_none hg with h | h <;> omega
  | some p =>
    have hne : (0 : Int) ≠ s.currentPlaylistIndex := by omega
    simp [handleDeletePlaylist, hlen, hg, hne]

/-- C4 (counterexample): with two playlists and the second one active on its second song,
a confirmed deletion of the first playlist changes the song the song index refers to. -/
theorem delete_before_active_changes_song :
    (currentSong secondActiveState).map (fun song => song.id) = some (JSValue.str "id-y") ∧
    (currentSong (handleDeletePlaylist 0 true secondActiveState)).map (fun song => song.id)
      = some (JSValue.str "id-x") ∧
    (currentSong (handleDeletePlaylist 0 true secondActiveState)).map (fun song => song.id)
      ≠ (currentSong secondActiveState).map (fun song => song.id) := by
  refine ⟨rfl, rfl, ?_⟩
  have h1 : (currentSong secondActiveState).map (fun song => song.id)
      = some (JSValue.str "id-y") := rfl
  have h2 : (currentSong (handleDeletePlaylist 0 true secondActiveState)).map
      (fun song => song.id) = some (JSValue.str "id-x") := rfl
  rw [h1, h2]
  intro h
  have h3 : "id-x" = "id-y" := by
    injection h with h
    injection h
  exact absurd h3 (by decide)

/-- C4 (amended): with exactly two playlists, a confirmed deletion of the playlist that is
not active keeps the referred song when the first playlist is the active one; when the
second playlist is the active one it becomes playlist `0` with the same songs and the song
index is reset to `0`. -/
theorem delete_other_of_two (s : State) (hlen : s.playlists.length = 2) :
    (s.currentPlaylistIndex = 0 →
      currentSong (handleDeletePlaylist 1 true s) = currentSong s) ∧
    (s.currentPlaylistIndex = 1 →
      (handleDeletePlaylist 0 true s).currentPlaylistIndex = 0 ∧
      currentSongs (handleDeletePlaylist 0 true s) = currentSongs s ∧
      (handleDeletePlaylist 0 true s).currentSongIndex = 0) := by
  match hp : s.playlists, hlen with
  | [p0, p1], _ =>
    constructor
    · intro hc
      simp [handleDeletePlaylist, hp, hc, getIdx, removeAt, List.enum, List.enumFrom, currentSong,
        currentSongs]
    · intro hc
      simp [handleDeletePlaylist, hp, hc, getIdx, removeAt, List.enum, List.enumFrom, currentSongs]

/-- Witness for C4 (amended) on both two-playlist example states. -/
theorem delete_other_of_two_witness :
    currentSong (handleDeletePlaylist 1 true firstActiveState) = currentSong firstActiveState ∧
    ((handleDeletePlaylist 0 true secondActiveState).currentPlaylistIndex = 0 ∧
      currentSongs (handleDeletePlaylist 0 true secondActiveState) = currentSongs secondActiveState ∧
      (handleDeletePlaylist 0 true secondActiveState).currentSongIndex = 0) :=
  ⟨(delete_other_of_two firstActiveState rfl).1 rfl,
   (delete_other_of_two secondActiveState rfl).2 rfl⟩

/-- C5 (counterexample): a song added from the file `.mp3` has the empty title; after
saving and reloading (`JSON.parse` gives back the saved value) its title is
`"Unknown Title"`. -/
theorem roundtrip_changes_empty_title :
    (songMeta ".mp3").1 = "" ∧
    (loadPlaylists true (fun _ => some (savablePlaylists emptyTitleCollection)) sampleFreshId
        (some emptyTitleText)).1
      = [{ name := JSValue.str "My Music"
           songs := [{ title := JSValue.str "Unknown Title"
                       artist := JSValue.str "Unknown Artist"
                       file := none
                       id := JSValue.str "1700000000000-0.5" }] }] ∧
    (loadPlaylists true (fun _ => some (savablePlaylists emptyTitleCollection)) sampleFreshId
        (some emptyTitleText)).1
      ≠ withoutFiles emptyTitleCollection := by
  refine ⟨rfl, rfl, ?_⟩
  intro h
  have h1 := congrArg (fun ps => (ps.flatMap (fun p => p.songs)).map (fun s => s.title)) h
  have h2 : [JSValue.str "Unknown Title"] = [JSValue.str ""] := h1
  have h3 : "Unknown Title" = "" := by
    injection h2 with h2 _
    injection h2
  exact absurd h3 (by decide)

/-- C5 (amended): for a collection whose playlist names and song titles, artists and ids
are all truthy (non-empty strings), reloading the saved value (a non-empty text that
`JSON.parse` maps back to `savablePlaylists ps`) yields the same playlists and songs in
the same order, with the same name, title, artist and id, and every `file` null. -/
theorem save_load_roundtrip (parse : String → Option JSValue) (freshId : Nat → Nat → String)
    (txt : String) (ps : List Playlist) (hne : txt ≠ "")
    (hparse : parse txt = some (savablePlaylists ps)) (ht : AllTruthy ps) :
    (loadPlaylists true parse freshId (some txt)).1 = withoutFiles ps := by
  simp [loadPlaylists, loadTry_savable parse freshId txt ps hne hparse ht]

/-- Witness for C5 (amended) on `sampleCollection`. -/
theorem save_load_roundtrip_witness :
    (loadPlaylists true (fun _ => some (savablePlaylists sampleCollection)) sampleFreshId
        (some sampleText)).1 = withoutFiles sampleCollection :=
  save_load_roundtrip (fun _ => some (savablePlaylists sampleCollection)) sampleFreshId
    sampleText sampleCollection (by decide) rfl (by unfold AllTruthy; decide)

/-- C6: when the stored text is not parseable the loader returns (it is a total function:
the `SyntaxError` is caught) exactly the default collection, one playlist named
`"My Music"` without songs. -/
theorem load_unparseable (window : Bool) (parse : String → Option JSValue)
    (freshId : Nat → Nat → String) (txt : String) (hparse : parse txt = none) :
    (loadPlaylists window parse freshId (some txt)).1 = defaultPlaylists ∧
    defaultPlaylists = [{ name := JSValue.str "My Music", songs := [] }] := by
  refine ⟨?_, rfl⟩
  cases window with
  | false => rfl
  | true =>
    by_cases he : txt = ""
    · simp [loadPlaylists, loadTry, he]
    · simp [loadPlaylists, loadTry, he, hparse]

/-- Witness for C6 on the stored text `not json`. -/
theorem load_unparseable_witness :
    (loadPlaylists true (fun _ => none) sampleFreshId (some "not json")).1 = defaultPlaylists ∧
    defaultPlaylists = [{ name := JSValue.str "My Music", songs := [] }] :=
  load_unparseable true (fun _ => none) sampleFreshId "not json" rfl

/-- C7 (the empty array is restored as it is): when the store holds `[]` the loader
returns a collection without any playlist and leaves the key in place. -/
theorem load_empty_array :
    loadPlaylists true (fun _ => some (JSValue.arr [])) sampleFreshId (some "[]")
      = ([], some "[]") := rfl

/-- C8 (counterexample): a stored `42` parses to a value that is not an array and the
stored empty string is not parseable; in both cases the loader returns the default
collection and the key keeps its value. -/
theorem load_keeps_bad_key :
    loadPlaylists true (fun _ => some (JSValue.num (JSNum.fin 42))) sampleFreshId (some "42")
      = (defaultPlaylists, some "42") ∧
    loadPlaylists true (fun _ => none) sampleFreshId (some "")
      = (defaultPlaylists, some "") :=
  ⟨rfl, rfl⟩

/-- C8 (amended): a stored text that is non-empty and not parseable is discarded: the
loader returns the default collection and removes the key.  The stored empty string gives
the default collection and is left in the store.  A stored text that parses to something
that is not an array gives the default collection. -/
theorem load_discards_bad_value (parse : String → Option JSValue)
    (freshId : Nat → Nat → String) (txt : String) :
    (txt ≠ "" → parse txt = none →
      loadPlaylists true parse freshId (some txt) = (defaultPlaylists, none)) ∧
    (txt = "" →
      loadPlaylists true parse freshId (some txt) = (defaultPlaylists, some "")) ∧
    (∀ v, parse txt = some v → (∀ items, v ≠ JSValue.arr items) →
      (loadPlaylists true parse freshId (some txt)).1 = defaultPlaylists) := by
  refine ⟨?_, ?_, ?_⟩
  · intro he hp
    simp [loadPlaylists, loadTry, he, hp]
  · intro he
    simp [loadPlaylists, loadTry, he]
  · intro v hp hv
    by_cases he : txt = ""
    · simp [loadPlaylists, loadTry, he]
    · cases v with
      | arr items => exact absurd rfl (hv items)
      | _ => simp [loadPlaylists, loadTry, he, hp]

/-- Witness for C8 (amended), one stored text for each case. -/
theorem load_discards_bad_value_witness :
    loadPlaylists true (fun _ => none) sampleFreshId (some "not json")
      = (defaultPlaylists, none) ∧
    loadPlaylists true (fun _ => none) sampleFreshId (some "") = (defaultPlaylists, some "") ∧
    (loadPlaylists true (fun _ => some (JSValue.num (JSNum.fin 42))) sampleFreshId
      (some "42")).1 = defaultPlaylists :=
  ⟨(load_discards_bad_value (fun _ => none) sampleFreshId "not json").1 (by decide) rfl,
   (load_discards_bad_value (fun _ => none) sampleFreshId "").2.1 rfl,
   (load_discards_bad_value (fun _ => some (JSValue.num (JSNum.fin 42))) sampleFreshId
      "42").2.2 (JSValue.num (JSNum.fin 42)) rfl (fun _ h => by cases h)⟩

/-- C9 (counterexample): for the file `A_ - B.mp3` the part of the cleaned name left of
the first separator is `A` followed by a space, but the artist is `A`, also on the song
that `handleFilesAdded` adds for this file. -/
theorem artist_is_trimmed :
    IsFirstSplit separator (cleanName "A_ - B.mp3") "A ".toList "B".toList ∧
    (songMeta "A_ - B.mp3").2 = "A" ∧
    (songMeta "A_ - B.mp3").2 ≠ String.mk "A ".toList ∧
    artistAndTitle (getIdx (currentSongs (handleFilesAdded sampleObjectURL sampleNewId
        [{ name := "A_ - B.mp3", type := "audio/mpeg" }] firstActiveState)) 3)
      = some (JSValue.str "A", JSValue.str "B") :=
  ⟨splitFirst_some separator separator_ne_nil _ _ _ rfl, rfl, by decide, rfl⟩

/-- C9 (amended): when the cleaned name of the `k`-th audio file is `l`, the first
occurrence of the separator, then `r`, the song that `handleFilesAdded` adds for it to the
active playlist has the artist `l` trimmed and the title `r` trimmed (later separators
kept); in particular the song added for `Artist Name - Song Title.mp3` has artist
`Artist Name` and title `Song Title`. -/
theorem added_song_of_split (createObjectURL : Nat → FileEntry → String)
    (newId : Nat → String) (files : List FileEntry) (s : State) (pb : Playlist) (k : Nat)
    (f : FileEntry) (l r : List Char)
    (hpb : getIdx s.playlists s.currentPlaylistIndex = some pb)
    (hf : (files.filter isAudio)[k]? = some f)
    (h : IsFirstSplit separator (cleanName f.name) l r) :
    artistAndTitle (getIdx (currentSongs (handleFilesAdded createObjectURL newId files s))
        ((pb.songs.length : Int) + (k : Int)))
      = some (JSValue.str (String.mk (jsTrim l)), JSValue.str (String.mk (jsTrim r))) ∧
    artistAndTitle (getIdx (currentSongs (handleFilesAdded createObjectURL newId
        [{ name := "Artist Name - Song Title.mp3", type := "audio/mpeg" }] s))
        ((pb.songs.length : Int) + ((0 : Nat) : Int)))
      = some (JSValue.str "Artist Name", JSValue.str "Song Title") := by
  constructor
  · rw [added_song createObjectURL newId files s pb k f hpb hf]
    show some (JSValue.str (songMeta f.name).2, JSValue.str (songMeta f.name).1) = _
    rw [songMeta_split f.name l r h]
  · rw [added_song createObjectURL newId
      [{ name := "Artist Name - Song Title.mp3", type := "audio/mpeg" }] s pb 0
      { name := "Artist Name - Song Title.mp3", type := "audio/mpeg" } hpb rfl]
    rfl

/-- Witness for C9 (amended): a file whose name has two separators, added after a file
that is not an audio file. -/
theorem added_song_of_split_witness :
    artistAndTitle (getIdx (currentSongs (handleFilesAdded sampleObjectURL sampleNewId
        [{ name := "notes.txt", type := "text/plain" },
         { name := "AC_DC - Back - In Black.mp3", type := "audio/mpeg" }] firstActiveState))
        (((3 : Nat) : Int) + ((0 : Nat) : Int)))
      = some (JSValue.str (String.mk (jsTrim "AC DC".toList)),
              JSValue.str (String.mk (jsTrim "Back - In Black".toList))) ∧
    artistAndTitle (getIdx (currentSongs (handleFilesAdded sampleObjectURL sampleNewId
        [{ name := "Artist Name - Song Title.mp3", type := "audio/mpeg" }] firstActiveState))
        (((3 : Nat) : Int) + ((0 : Nat) : Int)))
      = some (JSValue.str "Artist Name", JSValue.str "Song Title") :=
  added_song_of_split sampleObjectURL sampleNewId
    [{ name := "notes.txt", type := "text/plain" },
     { name := "AC_DC - Back - In Black.mp3", type := "audio/mpeg" }] firstActiveState
    { name := JSValue.str "My Music",
      songs := [exampleSong "a", exampleSong "b", exampleSong "c"] }
    0 { name := "AC_DC - Back - In Black.mp3", type := "audio/mpeg" }
    "AC DC".toList "Back - In Black".toList rfl rfl
    (splitFirst_some separator separator_ne_nil _ _ _ rfl)

/-- C10: when the cleaned name of the `k`-th audio file does not contain the separator,
the song that `handleFilesAdded` adds for it to the active playlist has the artist
`Unknown Artist` and the whole cleaned name as title; in particular the song added for
`just_a_title.mp3` has artist `Unknown Artist` and title `just a title`. -/
theorem added_song_of_no_separator (createObjectURL : Nat → FileEntry → String)
    (newId : Nat → String) (files : List FileEntry) (s : State) (pb : Playlist) (k : Nat)
    (f : FileEntry)
    (hpb : getIdx s.playlists s.currentPlaylistIndex = some pb)
    (hf : (files.filter isAudio)[k]? = some f)
    (h : ∀ l r : List Char, cleanName f.name ≠ l ++ separator ++ r) :
    artistAndTitle (getIdx (currentSongs (handleFilesAdded createObjectURL newId files s))
        ((pb.songs.length : Int) + (k : Int)))
      = some (JSValue.str "Unknown Artist", JSValue.str (String.mk (cleanName f.name))) ∧
    artistAndTitle (getIdx (currentSongs (handleFilesAdded createObjectURL newId
        [{ name := "just_a_title.mp3", type := "audio/mpeg" }] s))
        ((pb.songs.length : Int) + ((0 : Nat) : Int)))
      = some (JSValue.str "Unknown Artist", JSValue.str "just a title") := by
  constructor
  · rw [added_song createObjectURL newId files s pb k f hpb hf]
    show some (JSValue.str (songMeta f.name).2, JSValue.str (songMeta f.name).1) = _
    rw [songMeta_whole f.name h]
  · rw [added_song createObjectURL newId
      [{ name := "just_a_title.mp3", type := "audio/mpeg" }] s pb 0
      { name := "just_a_title.mp3", type := "audio/mpeg" } hpb rfl]
    rfl

/-- Witness for C10: the second audio file of three dropped files. -/
theorem added_song_of_no_separator_witness :
    artistAndTitle (getIdx (currentSongs (handleFilesAdded sampleObjectURL sampleNewId
        sampleFiles firstActiveState)) (((3 : Nat) : Int) + ((1 : Nat) : Int)))
      = some (JSValue.str "Unknown Artist",
              JSValue.str (String.mk (cleanName "just_a_title.ogg"))) ∧
    artistAndTitle (getIdx (currentSongs (handleFilesAdded sampleObjectURL sampleNewId
        [{ name := "just_a_title.mp3", type := "audio/mpeg" }] firstActiveState))
        (((3 : Nat) : Int) + ((0 : Nat) : Int)))
      = some (JSValue.str "Unknown Artist", JSValue.str "just a title") :=
  added_song_of_no_separator sampleObjectURL sampleNewId sampleFiles firstActiveState
    { name := JSValue.str "My Music",
      songs := [exampleSong "a", exampleSong "b", exampleSong "c"] }
    1 { name := "just_a_title.ogg", type := "audio/ogg" } rfl rfl
    (splitFirst_none separator _ rfl)

/-- C11: when exactly one playlist exists, `handleDeletePlaylist` does nothing, for every
index and whatever the answer to the confirmation would be, except showing the notice
`Cannot delete the last playlist.`: the collection, the playlist index, the song index, the
playing flag, the position and the duration are unchanged. -/
theorem delete_last_playlist_refused (s : State) (index : Int) (confirmed : Bool)
    (h : s.playlists.length = 1) :
    handleDeletePlaylist index confirmed s
      = { s with alerts := "Cannot delete the last playlist." :: s.alerts } ∧
    (handleDeletePlaylist index confirmed s).playlists = s.playlists ∧
    (handleDeletePlaylist index confirmed s).currentPlaylistIndex = s.currentPlaylistIndex ∧
    (handleDeletePlaylist index confirmed s).currentSongIndex = s.currentSongIndex ∧
    (handleDeletePlaylist index confirmed s).isPlaying = s.isPlaying ∧
    (handleDeletePlaylist index confirmed s).currentTime = s.currentTime ∧
    (handleDeletePlaylist index confirmed s).duration = s.duration := by
  have hle : s.playlists.length ≤ 1 := by omega
  have heq : handleDeletePlaylist index confirmed s
      = { s with alerts := "Cannot delete the last playlist." :: s.alerts } := by
    unfold handleDeletePlaylist
    rw [if_pos hle]
  rw [heq]
  exact ⟨rfl, rfl, rfl, rfl, rfl, rfl, rfl⟩

/-- Witness for C11 on a state with a single playlist. -/
theorem delete_last_playlist_refused_witness :
    handleDeletePlaylist 0 true threeSongState
      = { threeSongState with
          alerts := "Cannot delete the last playlist." :: threeSongState.alerts } ∧
    (handleDeletePlaylist 0 true threeSongState).playlists = threeSongState.playlists ∧
    (handleDeletePlaylist 0 true threeSongState).currentPlaylistIndex
      = threeSongState.currentPlaylistIndex ∧
    (handleDeletePlaylist 0 true threeSongState).currentSongIndex
      = threeSongState.currentSongIndex ∧
    (handleDeletePlaylist 0 true threeSongState).isPlaying = threeSongState.isPlaying ∧
    (handleDeletePlaylist 0 true threeSongState).currentTime = threeSongState.currentTime ∧
    (handleDeletePlaylist 0 true threeSongState).duration = threeSongState.duration :=
  delete_last_playlist_refused threeSongState 0 true rfl

/-- C12: the predicate `the collection is non-empty and the playlist index refers to one of
its playlists` is preserved by creating a playlist (through the input box of the playlist
manager, or by the handler itself), by selecting any integer index, and by a confirmed
deletion of an index in range. -/
theorem playlist_index_preserved (s : State) (h : PlaylistIndexOk s) :
    (∀ name : String, PlaylistIndexOk (PlaylistManager.handleCreatePlaylist name s)) ∧
    (∀ name : String, PlaylistIndexOk (handleCreatePlaylist name s)) ∧
    (∀ index : Int, PlaylistIndexOk (handleSelectPlaylist index s)) ∧
    (∀ index : Int, 0 ≤ index → index < s.playlists.length →
      PlaylistIndexOk (handleDeletePlaylist index true s)) := by
  refine ⟨?_, ?_, ?_, ?_⟩
  · intro name
    unfold PlaylistManager.handleCreatePlaylist
    split
    · exact PlaylistIndexOk_handleCreatePlaylist _ s
    · exact h
  · intro name
    exact PlaylistIndexOk_handleCreatePlaylist name s
  · intro index
    exact PlaylistIndexOk_handleSelectPlaylist index s h
  · intro index h0 hlt
    exact PlaylistIndexOk_handleDeletePlaylist index s h h0 hlt

/-- Witness for C12 on the example state with two playlists. -/
theorem playlist_index_preserved_witness :
    PlaylistIndexOk (PlaylistManager.handleCreatePlaylist " Jazz " firstActiveState) ∧
    PlaylistIndexOk (handleSelectPlaylist 5 firstActiveState) ∧
    PlaylistIndexOk (handleDeletePlaylist 1 true firstActiveState) :=
  have h : PlaylistIndexOk firstActiveState :=
    ⟨List.cons_ne_nil _ _, by decide, by decide⟩
  ⟨(playlist_index_preserved firstActiveState h).1 " Jazz ",
   (playlist_index_preserved firstActiveState h).2.2.1 5,
   (playlist_index_preserved firstActiveState h).2.2.2 1 (by decide) (by decide)⟩

/-- C13: when a song other than the selected one is removed (confirmed), the song index
becomes one less if the removed song was before the selected one and stays the same if it
was after it; in both cases the song at the new index is the song that was selected. -/
theorem remove_other_song_keeps_current (s : State) (pl : Playlist) (r : Int)
    (current removed : Song)
    (hpl : getIdx s.playlists s.currentPlaylistIndex = some pl)
    (ha : getIdx pl.songs s.currentSongIndex = some current)
    (hr : getIdx pl.songs r = some removed)
    (hne : r ≠ s.currentSongIndex) :
    (r < s.currentSongIndex →
      (handleRemoveSong r true s).currentSongIndex = s.currentSongIndex - 1) ∧
    (r > s.currentSongIndex →
      (handleRemoveSong r true s).currentSongIndex = s.currentSongIndex) ∧
    currentSong (handleRemoveSong r true s) = some current := by
  obtain ⟨hp, hc, hi⟩ := handleRemoveSong_confirmed r s pl removed hpl hr
  have hsongs : currentSongs (handleRemoveSong r true s) = removeAt pl.songs r :=
    currentSongs_updateAt _ s _ pl hpl hp hc
  obtain ⟨ha0, halt, _⟩ := getIdx_eq_some ha
  obtain ⟨hr0, hrlt, _⟩ := getIdx_eq_some hr
  have hlen := removeAt_length pl.songs r hr0 hrlt
  have hz : ¬ (removeAt pl.songs r).length = 0 := by omega
  rw [if_neg hz, if_neg hne] at hi
  refine ⟨?_, ?_, ?_⟩
  · intro hlt
    rw [hi, if_pos hlt]
  · intro hgt
    rw [hi, if_neg (by omega)]
  · unfold currentSong
    rw [hsongs, hi]
    by_cases hlt : r < s.currentSongIndex
    · rw [if_pos hlt, getIdx_removeAt _ _ _ hr0 (by omega), if_neg (by omega)]
      rw [show s.currentSongIndex - 1 + 1 = s.currentSongIndex by omega]
      exact ha
    · rw [if_neg hlt, getIdx_removeAt _ _ _ hr0 ha0, if_pos (by omega)]
      exact ha

/-- Witness for C13: removing the first and the third of three songs, the second one
being selected. -/
theorem remove_other_song_keeps_current_witness :
    ((handleRemoveSong 0 true firstActiveState).currentSongIndex = 1 - 1 ∧
      currentSong (handleRemoveSong 0 true firstActiveState) = some (exampleSong "b")) ∧
    ((handleRemoveSong 2 true firstActiveState).currentSongIndex = 1 ∧
      currentSong (handleRemoveSong 2 true firstActiveState) = some (exampleSong "b")) :=
  have h0 := remove_other_song_keeps_current firstActiveState
    { name := JSValue.str "My Music",
      songs := [exampleSong "a", exampleSong "b", exampleSong "c"] }
    0 (exampleSong "b") (exampleSong "a") rfl rfl rfl (by decide)
  have h2 := remove_other_song_keeps_current firstActiveState
    { name := JSValue.str "My Music",
      songs := [exampleSong "a", exampleSong "b", exampleSong "c"] }
    2 (exampleSong "b") (exampleSong "c") rfl rfl rfl (by decide)
  ⟨⟨h0.1 (by decide), h0.2.2⟩, ⟨h2.2.1 (by decide), h2.2.2⟩⟩

/-- C14: when the selected song of a playlist with at least two songs is removed
(confirmed, audio element mounted), the playing flag becomes false; the song index stays,
now referring to the song that followed the removed one, or becomes `0` if the removed
song was the last one; the audio element is paused and given the file of that song as
source (the empty string when that song has no file), and no play request is made. -/
theorem remove_current_song (s : State) (pl : Playlist) (audio : Audio)
    (hpl : getIdx s.playlists s.currentPlaylistIndex = some pl)
    (h2 : 2 ≤ pl.songs.length)
    (ha0 : 0 ≤ s.currentSongIndex) (halt : s.currentSongIndex < pl.songs.length)
    (haudio : s.audio = some audio) :
    (handleRemoveSong s.currentSongIndex true s).isPlaying = false ∧
    (s.currentSongIndex + 1 < pl.songs.length →
      (handleRemoveSong s.currentSongIndex true s).currentSongIndex = s.currentSongIndex ∧
      currentSong (handleRemoveSong s.currentSongIndex true s)
        = getIdx pl.songs (s.currentSongIndex + 1)) ∧
    (s.currentSongIndex + 1 = pl.songs.length →
      (handleRemoveSong s.currentSongIndex true s).currentSongIndex = 0 ∧
      currentSong (handleRemoveSong s.currentSongIndex true s) = getIdx pl.songs 0) ∧
    (currentSong (handleRemoveSong s.currentSongIndex true s)).isSome = true ∧
    (handleRemoveSong s.currentSongIndex true s).audio
      = some (audio.pause.setSrc
          (((currentSong (handleRemoveSong s.currentSongIndex true s)).bind
            (fun song => song.file)).getD "")) := by
  cases hr : getIdx pl.songs s.currentSongIndex with
  | none => rcases getIdx_eq_none hr with h | h <;> omega
  | some removed =>
    obtain ⟨hp, hc, hi⟩ := handleRemoveSong_confirmed s.currentSongIndex s pl removed hpl hr
    have hsongs : currentSongs (handleRemoveSong s.currentSongIndex true s)
        = removeAt pl.songs s.currentSongIndex :=
      currentSongs_updateAt _ s _ pl hpl hp hc
    have hlen := removeAt_length pl.songs s.currentSongIndex ha0 halt
    have hz : ¬ (removeAt pl.songs s.currentSongIndex).length = 0 := by omega
    rw [if_neg hz, if_pos rfl] at hi
    have hcur : currentSong (handleRemoveSong s.currentSongIndex true s)
        = getIdx (removeAt pl.songs s.currentSongIndex)
            (if s.currentSongIndex ≥ (removeAt pl.songs s.currentSongIndex).length then 0
             else s.currentSongIndex) := by
      unfold currentSong
      rw [hsongs, hi]
    have hplay : (handleRemoveSong s.currentSongIndex true s).isPlaying = false ∧
        (handleRemoveSong s.currentSongIndex true s).audio
          = some (audio.pause.setSrc
              (((getIdx (removeAt pl.songs s.currentSongIndex)
                  (if s.currentSongIndex ≥ (removeAt pl.songs s.currentSongIndex).length then 0
                   else s.currentSongIndex)).bind (fun song => song.file)).getD "")) := by
      unfold handleRemoveSong
      simp only [hpl, hr, Bool.not_true, Bool.false_eq_true, if_false, haudio, or_true,
        decide_True, if_neg hz, if_true]
      simp
    have hnext : s.currentSongIndex + 1 < pl.songs.length →
        (handleRemoveSong s.currentSongIndex true s).currentSongIndex = s.currentSongIndex ∧
        currentSong (handleRemoveSong s.currentSongIndex true s)
          = getIdx pl.songs (s.currentSongIndex + 1) := by
      intro hlt
      have hge : ¬ s.currentSongIndex ≥ (removeAt pl.songs s.currentSongIndex).length := by
        omega
      rw [hcur, hi, if_neg hge, getIdx_removeAt _ _ _ ha0 ha0, if_neg (by omega)]
      exact ⟨rfl, rfl⟩
    have hlast : s.currentSongIndex + 1 = pl.songs.length →
        (handleRemoveSong s.currentSongIndex true s).currentSongIndex = 0 ∧
        currentSong (handleRemoveSong s.currentSongIndex true s) = getIdx pl.songs 0 := by
      intro heq
      have hge : s.currentSongIndex ≥ (removeAt pl.songs s.currentSongIndex).length := by
        omega
      rw [hcur, hi, if_pos hge, getIdx_removeAt _ _ _ ha0 (le_refl 0), if_pos (by omega)]
      exact ⟨rfl, rfl⟩
    refine ⟨hplay.1, hnext, hlast, ?_, ?_⟩
    · by_cases hlt : s.currentSongIndex + 1 < pl.songs.length
      · rw [(hnext hlt).2]
        exact getIdx_isSome _ _ (by omega) hlt
      · rw [(hlast (by omega)).2]
        exact getIdx_isSome _ _ (le_refl 0) (by omega)
    · rw [hplay.2, hcur]

/-- Witness for C14: removing the selected second song, and the selected last song, of
three songs. -/
theorem remove_current_song_witness :
    ((handleRemoveSong 1 true firstActiveState).isPlaying = false ∧
      (handleRemoveSong 1 true firstActiveState).currentSongIndex = 1 ∧
      currentSong (handleRemoveSong 1 true firstActiveState) = some (exampleSong "c")) ∧
    ((handleRemoveSong 2 true lastSongState).isPlaying = false ∧
      (handleRemoveSong 2 true lastSongState).currentSongIndex = 0 ∧
      currentSong (handleRemoveSong 2 true lastSongState) = some (exampleSong "a")) :=
  have h1 := remove_current_song firstActiveState
    { name := JSValue.str "My Music",
      songs := [exampleSong "a", exampleSong "b", exampleSong "c"] }
    { src := "blob:b", paused := false, requests := [] } rfl (by decide) (by decide)
    (by decide) rfl
  have h2 := remove_current_song lastSongState
    { name := JSValue.str "My Music",
      songs := [exampleSong "a", exampleSong "b", exampleSong "c"] }
    { src := "blob:b", paused := false, requests := [] } rfl (by decide) (by decide)
    (by decide) rfl
  ⟨⟨h1.1, h1.2.1 (by decide)⟩, ⟨h2.1, h2.2.2.1 (by decide)⟩⟩

/-- C15 (the file is not checked by the handler): after a reload the selected song has no
file; clicking it in the song list runs `handleTogglePlay`, which assigns the missing file
to the source of the audio element and requests playback. -/
theorem toggle_without_file_plays :
    (currentSong restoredState).map (fun song => song.file) = some none ∧
    handlePlaySong 0 restoredState = handleTogglePlay restoredState ∧
    (handleTogglePlay restoredState).audio
      = some { src := "null", paused := false,
               requests := [AudioReq.play, AudioReq.setSrc "null"] } ∧
    (handleTogglePlay restoredState).audio ≠ restoredState.audio := by
  refine ⟨rfl, rfl, rfl, ?_⟩
  intro h
  have h1 : (handleTogglePlay restoredState).audio.map (fun a => a.src) = some "null" := rfl
  have h2 : restoredState.audio.map (fun a => a.src) = some "" := rfl
  rw [h, h2] at h1
  exact absurd h1 (by decide)

/-- C16 (counterexample): `handleSeek` forwards a negative target and sets the position
to it, and it forwards a target when the duration is zero. -/
theorem seek_forwards_any_finite_target :
    (handleSeek (JSNum.fin (-5)) firstActiveState).currentTime = JSNum.fin (-5) ∧
    (handleSeek (JSNum.fin (-5)) firstActiveState).audio
      = some { src := "blob:b", paused := false,
               requests := [AudioReq.setCurrentTime (JSNum.fin (-5))] } ∧
    firstActiveState.currentTime = JSNum.fin 12 ∧
    (handleSeek (JSNum.fin 3) { firstActiveState with duration := JSNum.fin 0 }).currentTime
      = JSNum.fin 3 := ⟨rfl, rfl, rfl, rfl⟩

/-- C16 (amended): `handleSeek` does nothing when the target is not finite; for every
finite target (audio element mounted) it forwards the target to the audio element and sets
the position to it.  The progress bar does nothing when the duration is `NaN`, zero or
negative, and otherwise either does nothing or calls `handleSeek` with a target between
`0` and the duration. -/
theorem seek_spec (s : State) (t : JSNum) :
    (t.isFinite = false → handleSeek t s = s) ∧
    (∀ a : Audio, s.audio = some a → t.isFinite = true →
      handleSeek t s = { s with currentTime := t, audio := some (a.setCurrentTime t) }) ∧
    (∀ clientX left width : ℚ,
      (s.duration = JSNum.nan ∨ s.duration = JSNum.negInf ∨
        ∃ d : ℚ, d ≤ 0 ∧ s.duration = JSNum.fin d) →
      ProgressBar.handleSeek clientX left width s = s) ∧
    (∀ clientX left width : ℚ,
      ProgressBar.handleSeek clientX left width s = s ∨
      ∃ q d : ℚ, s.duration = JSNum.fin d ∧ 0 ≤ q ∧ q ≤ d ∧
        ProgressBar.handleSeek clientX left width s = handleSeek (JSNum.fin q) s) := by
  refine ⟨?_, ?_, ?_, ?_⟩
  · intro ht
    unfold handleSeek
    cases s.audio <;> simp [ht]
  · intro a ha ht
    unfold handleSeek
    simp [ha, ht]
  · intro clientX left width hd
    unfold ProgressBar.handleSeek
    rcases hd with h | h | ⟨d, hd, h⟩
    · simp [h, JSNum.truthy]
    · simp [h, JSNum.leZero]
    · simp [h, JSNum.leZero, hd]
  · intro clientX left width
    unfold ProgressBar.handleSeek
    split
    · left; rfl
    · rename_i hg
      simp only []
      cases hdur : s.duration with
      | nan => simp [hdur, JSNum.truthy] at hg
      | negInf => simp [hdur, JSNum.leZero] at hg
      | posInf =>
        left
        simp [mul_posInf_not_finite]
      | fin d =>
        simp only [hdur, JSNum.truthy, JSNum.leZero, decide_eq_false_iff_not, ne_eq,
          Decidable.not_not, decide_eq_true_eq, not_or, not_le] at hg
        rcases clamp_cases (clientX - left) width with hc | ⟨p, hp0, hp1, hc⟩
        · left
          rw [hc]
          simp [JSNum.mul, JSNum.isFinite]
        · right
          refine ⟨p * d, d, rfl, mul_nonneg hp0 (le_of_lt hg.2), ?_, ?_⟩
          · calc p * d ≤ 1 * d := mul_le_mul_of_nonneg_right hp1 (le_of_lt hg.2)
              _ = d := one_mul d
          · rw [hc]
            simp [JSNum.mul, JSNum.isFinite]

/-- Witness for C16 (amended): a target that is not finite, a finite target, a click on
the bar with unknown duration, and a click in the middle of the bar. -/
theorem seek_spec_witness :
    handleSeek JSNum.nan firstActiveState = firstActiveState ∧
    handleSeek (JSNum.fin 30) firstActiveState
      = { firstActiveState with
          currentTime := JSNum.fin 30
          audio := some (Audio.setCurrentTime
            { src := "blob:b", paused := false, requests := [] } (JSNum.fin 30)) } ∧
    ProgressBar.handleSeek 150 100 200 { firstActiveState with duration := JSNum.nan }
      = { firstActiveState with duration := JSNum.nan } :=
  ⟨(seek_spec firstActiveState JSNum.nan).1 rfl,
   (seek_spec firstActiveState (JSNum.fin 30)).2.1 _ rfl rfl,
   (seek_spec { firstActiveState with duration := JSNum.nan } JSNum.nan).2.2.1 150 100 200
     (Or.inl rfl)⟩

/-- C17: with a valid active playlist, `handleFilesAdded` makes the songs of the active
playlist its previous songs followed by the new songs, which are one song per audio-typed
file in the order of the files; every other playlist, the number of playlists and the
playlist index are unchanged. -/
theorem add_files_appends (createObjectURL : Nat → FileEntry → String)
    (newId : Nat → String) (files : List FileEntry) (s : State) (pb : Playlist)
    (hpb : getIdx s.playlists s.currentPlaylistIndex = some pb) :
    getIdx (handleFilesAdded createObjectURL newId files s).playlists s.currentPlaylistIndex
      = some { pb with songs := (pb.songs ++ newSongsOf createObjectURL newId files) } ∧
    (newSongsOf createObjectURL newId files).length = (files.filter isAudio).length ∧
    (∀ k : Nat, (newSongsOf createObjectURL newId files)[k]?
      = ((files.filter isAudio)[k]?).map (fun f => mkSong createObjectURL newId k f)) ∧
    (∀ j : Int, j ≠ s.currentPlaylistIndex →
      getIdx (handleFilesAdded createObjectURL newId files s).playlists j
        = getIdx s.playlists j) ∧
    (handleFilesAdded createObjectURL newId files s).playlists.length = s.playlists.length ∧
    (handleFilesAdded createObjectURL newId files s).currentPlaylistIndex
      = s.currentPlaylistIndex := by
  have hnl : (newSongsOf createObjectURL newId files).length = (files.filter isAudio).length := by
    simp [newSongsOf]
  refine ⟨?_, hnl, newSongsOf_getElem? createObjectURL newId files, ?_⟩
  · by_cases hfiles : (files.filter isAudio).length = 0
    · obtain ⟨h0, hlt, _⟩ := getIdx_eq_some hpb
      have hguard : ¬ (s.currentPlaylistIndex < 0 ∨
          s.currentPlaylistIndex ≥ s.playlists.length) := by omega
      have hnil : newSongsOf createObjectURL newId files = [] :=
        List.length_eq_zero.mp (by rw [hnl]; exact hfiles)
      have : handleFilesAdded createObjectURL newId files s = s := by
        unfold handleFilesAdded
        simp [hguard, hfiles]
      rw [this, hnil, List.append_nil, hpb]
    · obtain ⟨hp, _, _⟩ :=
        handleFilesAdded_accepted createObjectURL newId files s pb hpb hfiles
      rw [hp, getIdx_updateAt_self, hpb]
      rfl
  · by_cases hfiles : (files.filter isAudio).length = 0
    · obtain ⟨h0, hlt, _⟩ := getIdx_eq_some hpb
      have hguard : ¬ (s.currentPlaylistIndex < 0 ∨
          s.currentPlaylistIndex ≥ s.playlists.length) := by omega
      have : handleFilesAdded createObjectURL newId files s = s := by
        unfold handleFilesAdded
        simp [hguard, hfiles]
      rw [this]
      exact ⟨fun _ _ => rfl, rfl, rfl⟩
    · obtain ⟨hp, hc, _⟩ :=
        handleFilesAdded_accepted createObjectURL newId files s pb hpb hfiles
      refine ⟨?_, ?_, hc⟩
      · intro j hj
        rw [hp, getIdx_updateAt_ne _ _ _ _ hj]
      · rw [hp, length_updateAt]

/-- Witness for C17: three files, one of them not an audio file, added to the example
state. -/
theorem add_files_appends_witness :
    getIdx (handleFilesAdded sampleObjectURL sampleNewId sampleFiles firstActiveState).playlists
        firstActiveState.currentPlaylistIndex
      = some { name := JSValue.str "My Music",
               songs := ([exampleSong "a", exampleSong "b", exampleSong "c"]
                 ++ newSongsOf sampleObjectURL sampleNewId sampleFiles) } ∧
    (newSongsOf sampleObjectURL sampleNewId sampleFiles).length
      = (sampleFiles.filter isAudio).length :=
  have h := add_files_appends sampleObjectURL sampleNewId sampleFiles firstActiveState
    { name := JSValue.str "My Music",
      songs := [exampleSong "a", exampleSong "b", exampleSong "c"] } rfl
  ⟨h.1, h.2.1⟩

/-- C18: when the effect runs (audio element mounted) and there is no selected song, or
the selected song has no file, it pauses the audio element, clears its source and leaves
the playing flag false, the position `0` and the duration `0`. -/
theorem sync_without_source (s : State) (audio : Audio) (haudio : s.audio = some audio)
    (h : currentSong s = none ∨ ∃ song, currentSong s = some song ∧ song.file = none) :
    syncEffect s
      = { s with
          isPlaying := false
          currentTime := JSNum.fin 0
          duration := JSNum.fin 0
          audio := some (audio.pause.setSrc "") } := by
  unfold syncEffect
  rcases h with h | ⟨song, h, hf⟩
  · simp only [haudio, h]
  · simp only [haudio, h, hf, fileTruthy, Bool.false_eq_true, if_false]

/-- Witness for C18 on the state after a reload, whose selected song has no file. -/
theorem sync_without_source_witness :
    syncEffect { restoredState with isPlaying := true }
      = { restoredState with
          isPlaying := false
          currentTime := JSNum.fin 0
          duration := JSNum.fin 0
          audio := some (Audio.setSrc
            (Audio.pause { src := "", paused := true, requests := [] }) "") } :=
  sync_without_source { restoredState with isPlaying := true }
    { src := "", paused := true, requests := [] } rfl (Or.inr ⟨_, rfl, rfl⟩)

/-- C19: creating a playlist from the input box changes nothing if the text trims to the
empty string; otherwise one playlist with the trimmed name and no songs is appended at the
end of the collection, the playlist index becomes the index of the new playlist, and the
song index is `0`, the playing flag false, the position `0` and the duration `0`. -/
theorem create_playlist_spec (name : String) (s : State) :
    (jsTrim name.toList = [] → PlaylistManager.handleCreatePlaylist name s = s) ∧
    (jsTrim name.toList ≠ [] →
      (PlaylistManager.handleCreatePlaylist name s).playlists
        = s.playlists ++ [{ name := JSValue.str (String.mk (jsTrim name.toList)), songs := [] }] ∧
      (PlaylistManager.handleCreatePlaylist name s).currentPlaylistIndex = s.playlists.length ∧
      (PlaylistManager.handleCreatePlaylist name s).currentSongIndex = 0 ∧
      (PlaylistManager.handleCreatePlaylist name s).isPlaying = false ∧
      (PlaylistManager.handleCreatePlaylist name s).currentTime = JSNum.fin 0 ∧
      (PlaylistManager.handleCreatePlaylist name s).duration = JSNum.fin 0) := by
  constructor
  · intro h
    unfold PlaylistManager.handleCreatePlaylist
    rw [if_neg (fun hn => hn h)]
  · intro h
    unfold PlaylistManager.handleCreatePlaylist
    rw [if_pos h]
    refine ⟨rfl, ?_, rfl, rfl, rfl, rfl⟩
    unfold handleCreatePlaylist
    simp

/-- Witness for C19: a text of blanks, and a name with blanks around it. -/
theorem create_playlist_spec_witness :
    PlaylistManager.handleCreatePlaylist "   " firstActiveState = firstActiveState ∧
    (PlaylistManager.handleCreatePlaylist " Jazz " firstActiveState).playlists
      = firstActiveState.playlists ++ [{ name := JSValue.str "Jazz", songs := [] }] ∧
    (PlaylistManager.handleCreatePlaylist " Jazz " firstActiveState).currentPlaylistIndex = 2 :=
  ⟨(create_playlist_spec "   " firstActiveState).1 rfl,
   ((create_playlist_spec " Jazz " firstActiveState).2 (by decide)).1,
   ((create_playlist_spec " Jazz " firstActiveState).2 (by decide)).2.1⟩

/-- C20 (counterexample): for the double `67553994410557496` the quotient by `60` rounds
up to a whole number: the minutes are one more than the whole part of the exact quotient,
and minutes times `60` plus seconds is not the input. -/
theorem formatTime_rounds_minutes :
    formatTime decimalNumeral (JSNum.fin ((67553994410557496 : Nat) : ℚ))
      = "1125899906842625:56" ∧
    String.mk ((toString (67553994410557496 / 60)).toList ++ [':']
        ++ twoDigits (67553994410557496 % 60)) = "1125899906842624:56" ∧
    formatTime decimalNumeral (JSNum.fin ((67553994410557496 : Nat) : ℚ))
      ≠ String.mk ((toString (67553994410557496 / 60)).toList ++ [':']
        ++ twoDigits (67553994410557496 % 60)) ∧
    1125899906842625 * 60 + 56 ≠ 67553994410557496 := by
  have hout : formatTime decimalNumeral (JSNum.fin ((67553994410557496 : Nat) : ℚ))
      = "1125899906842625:56" := by
    have hn : ¬ (((67553994410557496 : Nat) : ℚ) < 0) := by norm_num
    unfold formatTime
    simp only [hn, if_false, toDouble_large_quotient, floor_mod_sixty]
    have h1 : Int.floor (1125899906842625 : ℚ) = 1125899906842625 := by
      exact_mod_cast Int.floor_intCast (1125899906842625 : Int)
    rw [h1]
    rfl
  have hexact : String.mk ((toString (67553994410557496 / 60)).toList ++ [':']
      ++ twoDigits (67553994410557496 % 60)) = "1125899906842624:56" := by rfl
  refine ⟨hout, hexact, ?_, by decide⟩
  rw [hout, hexact]
  decide

/-- C20 (amended): for a whole number `n` of seconds below `2 ^ 53`, `formatTime` gives
the decimal of `n / 60`, a colon, and `n % 60` written with two digits; the seconds are
below `60` and `n / 60 * 60 + n % 60 = n`; for `NaN`, the infinities and negative numbers
it gives `0:00`. -/
theorem formatTime_spec (large : Int → String) (n : Nat) (hn : n < 2 ^ 53) :
    formatTime large (JSNum.fin (n : ℚ))
      = String.mk ((toString (n / 60)).toList ++ [':'] ++ twoDigits (n % 60)) ∧
    n % 60 < 60 ∧ n / 60 * 60 + n % 60 = n ∧
    formatTime large JSNum.nan = "0:00" ∧ formatTime large JSNum.posInf = "0:00" ∧
    formatTime large JSNum.negInf = "0:00" ∧
    (∀ q : ℚ, q < 0 → formatTime large (JSNum.fin q) = "0:00") := by
  refine ⟨?_, Nat.mod_lt _ (by decide), Nat.div_add_mod' n 60, rfl, rfl, rfl, ?_⟩
  · have hneg : ¬ ((n : ℚ) < 0) := not_lt.mpr (Nat.cast_nonneg n)
    obtain ⟨d, hd, hfl⟩ := toDouble_div_sixty n hn
    have hmin : (((n / 60 : Nat) : Int)).natAbs < 2 ^ 53 := by
      have := Nat.div_le_self n 60
      simp only [Int.natAbs_ofNat]
      omega
    have hsec : (((n % 60 : Nat) : Int)).natAbs < 2 ^ 53 := by
      have := Nat.mod_lt n (show 0 < 60 by decide)
      simp only [Int.natAbs_ofNat]
      omega
    unfold formatTime
    simp only [hneg, if_false, hd, hfl, floor_mod_sixty, numberToString, hmin, hsec, if_true]
    rw [padStart2_toString _ (Nat.mod_lt _ (by decide))]
    rfl
  · intro q hq
    unfold formatTime
    simp only [hq, if_true]

/-- Witness for C20 (amended) at `3599` seconds. -/
theorem formatTime_spec_witness :
    formatTime decimalNumeral (JSNum.fin ((3599 : Nat) : ℚ))
      = String.mk ((toString (3599 / 60)).toList ++ [':'] ++ twoDigits (3599 % 60)) ∧
    3599 % 60 < 60 ∧ 3599 / 60 * 60 + 3599 % 60 = 3599 ∧
    formatTime decimalNumeral JSNum.nan = "0:00" ∧
    formatTime decimalNumeral JSNum.posInf = "0:00" ∧
    formatTime decimalNumeral JSNum.negInf = "0:00" ∧
    (∀ q : ℚ, q < 0 → formatTime decimalNumeral (JSNum.fin q) = "0:00") :=
  formatTime_spec decimalNumeral 3599 (by decide)

end MusicPlayer
